import Mathlib

/-!
Verification of the airgapped RPM bundle-build pipeline
(`src/manifest_tools/{merger,validator}.py`,
`src/bundle_builder/{resolver,downloader,builder}.py`).

The Python code operates on parsed JSON values (`dict`/`list`/`str`/...),
so we first give a shallow embedding of JSON values, including the
dictionary-access helpers (`.get`, `in`), Python truthiness and the
equality used for dictionary keys and set membership.  Manifest files and
external tool invocations (dnf, createrepo, zstd, the filesystem) are the
system boundary: their *outputs* (file contents, stdout lines, exit codes)
are inputs to the embedded functions, exactly as the Python code consumes
them.
-/

/-- A parsed JSON value, as produced by Python's `json.load`.  Numbers are
modelled as integers (every number occurring in the manifest schema is an
integer). -/
inductive Json where
  | null : Json
  | bool : Bool → Json
  | num : Int → Json
  | str : String → Json
  | arr : List Json → Json
  | obj : List (String × Json) → Json
deriving Repr, Inhabited

mutual

/-- Structural equality of JSON values (Python `==` restricted to values of
equal type; the numeric `True == 1` conflation never matters for values
compared by this development). -/
def Json.beq : Json → Json → Bool
  | .null, .null => true
  | .bool a, .bool b => a == b
  | .num a, .num b => a == b
  | .str a, .str b => a == b
  | .arr a, .arr b => Json.beqList a b
  | .obj a, .obj b => Json.beqFields a b
  | _, _ => false

/-- Elementwise equality of JSON arrays. -/
def Json.beqList : List Json → List Json → Bool
  | [], [] => true
  | a :: as, b :: bs => Json.beq a b && Json.beqList as bs
  | _, _ => false

/-- Elementwise equality of JSON object field lists. -/
def Json.beqFields : List (String × Json) → List (String × Json) → Bool
  | [], [] => true
  | (ka, va) :: as, (kb, vb) :: bs => ka == kb && Json.beq va vb && Json.beqFields as bs
  | _, _ => false

end

instance : BEq Json := ⟨Json.beq⟩

/-- Python truthiness of a JSON value (`if value:`). -/
def Json.truthy : Json → Bool
  | .null => false
  | .bool b => b
  | .num n => n != 0
  | .str s => s != ""
  | .arr xs => !xs.isEmpty
  | .obj fs => !fs.isEmpty

/-- Is a JSON value usable as a Python dict key?  `json.load` produces
`str`/`int`/`float`/`bool`/`None` (hashable) and `list`/`dict`
(unhashable: using one as a key raises `TypeError`). -/
def Json.hashable : Json → Bool
  | .arr _ => false
  | .obj _ => false
  | _ => true

/-- `d.get(key)` on a Python dict: the value of the first (only) binding of
`key`, if present. -/
def Json.dictGet (fields : List (String × Json)) (key : String) : Option Json :=
  match fields.find? (fun kv => kv.1 == key) with
  | some kv => some kv.2
  | none => none

/-- `d.get(key, default)` on a Python dict. -/
def Json.dictGetD (fields : List (String × Json)) (key : String) (dflt : Json) : Json :=
  (Json.dictGet fields key).getD dflt

/-- `key in d` on a Python dict. -/
def Json.dictMem (fields : List (String × Json)) (key : String) : Bool :=
  (Json.dictGet fields key).isSome

/-- `value.get(key, default)` where the Python code statically knows `value`
is a dict; a non-object value raises `AttributeError` in Python, a path not
taken by any theorem below. -/
def Json.getD (j : Json) (key : String) (dflt : Json) : Json :=
  match j with
  | .obj fields => Json.dictGetD fields key dflt
  | _ => dflt

/-- Python `for x in v` where the code expects a JSON list; iteration of
non-list values (which raises or yields non-dict items that raise in the
Python) is outside the modelled fragment. -/
def Json.iterList : Json → List Json
  | .arr xs => xs
  | _ => []

/-- Python `value == n` for an int literal `n` (`bool` is an `int` subtype
in Python, so `True == 1`). -/
def Json.eqInt (j : Json) (n : Int) : Bool :=
  match j with
  | .num m => m == n
  | .bool b => (if b then (1 : Int) else 0) == n
  | _ => false

/-- Python `value == n` lifted to an optional value (`None == n` is
`False`). -/
def Json.eqIntOpt (j : Option Json) (n : Int) : Bool :=
  match j with
  | some v => v.eqInt n
  | none => false

/-- Python `value in [n₁, …]` for a list of int literals. -/
def Json.memInts (j : Json) (ns : List Int) : Bool :=
  ns.any (fun n => j.eqInt n)

/-- Python `value == s` for a string literal `s`. -/
def Json.eqStr (j : Json) (s : String) : Bool :=
  match j with
  | .str t => t == s
  | _ => false

/-- Python `value in [s₁, …]` for a list of string literals. -/
def Json.memStrs (j : Json) (ss : List String) : Bool :=
  ss.any (fun s => j.eqStr s)

/-- The Python type name of a JSON value, as rendered by `type(v)`. -/
def Json.typeName : Json → String
  | .null => "<class 'NoneType'>"
  | .bool _ => "<class 'bool'>"
  | .num _ => "<class 'int'>"
  | .str _ => "<class 'str'>"
  | .arr _ => "<class 'list'>"
  | .obj _ => "<class 'dict'>"

/-- A single-quote character, kept out of string literals. -/
def quoteChar : String := String.singleton (Char.ofNat 39)

mutual

/-- Python `repr` of a JSON value (used by `str` for container elements). -/
def Json.pyRepr : Json → String
  | .null => "None"
  | .bool b => if b then "True" else "False"
  | .num n => toString n
  | .str s => quoteChar ++ s ++ quoteChar
  | .arr xs => "[" ++ Json.pyReprList xs ++ "]"
  | .obj fs => "\x7b" ++ Json.pyReprFields fs ++ "\x7d"

/-- Comma-separated `repr`s of JSON array elements. -/
def Json.pyReprList : List Json → String
  | [] => ""
  | [x] => Json.pyRepr x
  | x :: xs => Json.pyRepr x ++ ", " ++ Json.pyReprList xs

/-- Comma-separated `repr`s of JSON object fields. -/
def Json.pyReprFields : List (String × Json) → String
  | [] => ""
  | [(k, v)] => quoteChar ++ k ++ quoteChar ++ ": " ++ Json.pyRepr v
  | (k, v) :: fs =>
      quoteChar ++ k ++ quoteChar ++ ": " ++ Json.pyRepr v ++ ", " ++ Json.pyReprFields fs

end

/-- Python `str` of a JSON value, as interpolated into f-strings. -/
def Json.pyStr : Json → String
  | .str s => s
  | j => j.pyRepr

/-! ## Manifest validator (`src/manifest_tools/validator.py`) -/

namespace ManifestValidator

/-- `REQUIRED_FIELDS` in `validator.py`. -/
def REQUIRED_FIELDS : List String :=
  ["schema_version", "host_id", "os", "arch", "enabled_repos", "installed_rpms", "timestamp"]

/-- `REQUIRED_OS_FIELDS` in `validator.py`. -/
def REQUIRED_OS_FIELDS : List String := ["major", "minor", "name"]

/-- `REQUIRED_RPM_FIELDS` in `validator.py`. -/
def REQUIRED_RPM_FIELDS : List String := ["name", "epoch", "version", "release", "arch"]

/-- `VALID_ARCHES` in `validator.py`. -/
def VALID_ARCHES : List String := ["x86_64", "aarch64", "noarch", "i686"]

/-- `VALID_OS_MAJORS` in `validator.py`. -/
def VALID_OS_MAJORS : List Int := [8, 9]

/-- The `(errors, warnings)` contribution of one validation pass. -/
abbrev Msgs := List String × List String

/-- `_validate_required_fields`: one error per missing required top-level
field. -/
def validateRequiredFields (m : List (String × Json)) : Msgs :=
  (REQUIRED_FIELDS.filterMap (fun field =>
    if Json.dictMem m field then none else some s!"Missing required field: {field}"), [])

/-- `_validate_schema_version`: warn on a truthy version different from
`"1.0"`. -/
def validateSchemaVersion (m : List (String × Json)) : Msgs :=
  let version := (Json.dictGet m "schema_version").getD .null
  if version.truthy && !(version.eqStr "1.0") then
    let v := version.pyStr
    ([], [s!"Unknown schema version: {v} (expected 1.0)"])
  else ([], [])

/-- `_validate_os`: required OS sub-fields, major in the supported set,
minor an integer.  A non-dict `os` value raises `TypeError` in the Python
(`field in os_info`); that exceptional path is outside the modelled
fragment and outside every theorem below. -/
def validateOs (m : List (String × Json)) : Msgs :=
  let osInfo : List (String × Json) :=
    match (Json.dictGet m "os").getD (.obj []) with
    | .obj fields => fields
    | _ => []
  let missing := REQUIRED_OS_FIELDS.filterMap (fun field =>
    if Json.dictMem osInfo field then none else some s!"Missing required os field: {field}")
  let majorErr :=
    match Json.dictGet osInfo "major" with
    | some major =>
        if major == Json.null then []
        else if !(major.memInts VALID_OS_MAJORS) then
          let v := major.pyStr
          [s!"Invalid OS major version: {v} (expected 8 or 9)"]
        else []
    | none => []
  let minorErr :=
    match Json.dictGet osInfo "minor" with
    | some minor =>
        if minor == Json.null then []
        else
          match minor with
          | .num _ => []
          | .bool _ => []
          | v => [s!"OS minor version must be integer, got: {v.typeName}"]
    | none => []
  (missing ++ majorErr ++ minorErr, [])

/-- `_validate_arch`: a truthy arch outside `\x7bx86_64, aarch64\x7d` is an
error. -/
def validateArch (m : List (String × Json)) : Msgs :=
  let arch := (Json.dictGet m "arch").getD .null
  if arch.truthy && !(arch.memStrs ["x86_64", "aarch64"]) then
    let v := arch.pyStr
    ([s!"Invalid system architecture: {v} (expected x86_64 or aarch64)"], [])
  else ([], [])

/-- `_validate_repos`: `enabled_repos` must be a list of dicts each carrying
an `id` (missing `name` is a warning). -/
def validateRepos (m : List (String × Json)) : Msgs :=
  match Json.dictGetD m "enabled_repos" (.arr []) with
  | .arr repos =>
      (repos.enum.foldl (fun (acc : Msgs) iv =>
        let (i, repo) := iv
        match repo with
        | .obj fields =>
            let e := if Json.dictMem fields "id" then []
                     else [s!"enabled_repos[{i}] missing required field: id"]
            let w := if Json.dictMem fields "name" then []
                     else [s!"enabled_repos[{i}] missing field: name"]
            (acc.1 ++ e, acc.2 ++ w)
        | _ => (acc.1 ++ [s!"enabled_repos[{i}] must be an object"], acc.2)) ([], []))
  | _ => (["enabled_repos must be a list"], [])

/-- The per-entry check of `_validate_rpms` on the sampled prefix, carrying
the entry index used in the messages. -/
def rpmEntryMsgs (iv : Nat × Json) : Msgs :=
  let (i, rpm) := iv
  match rpm with
  | .obj fields =>
      let missing := REQUIRED_RPM_FIELDS.filterMap (fun field =>
        if Json.dictMem fields field then none
        else some s!"installed_rpms[{i}] missing required field: {field}")
      let rpmArch := Json.dictGetD fields "arch" (.str "")
      let w := if rpmArch.truthy && !(rpmArch.memStrs VALID_ARCHES) then
                 let v := rpmArch.pyStr
                 [s!"installed_rpms[{i}] has unusual arch: {v}"]
               else []
      (missing, w)
  | _ => ([s!"installed_rpms[{i}] must be an object"], [])

/-- `_validate_rpms`: empty list is a warning; otherwise only the first
`min(len, 100)` entries are checked. -/
def validateRpms (m : List (String × Json)) : Msgs :=
  match Json.dictGetD m "installed_rpms" (.arr []) with
  | .arr rpms =>
      if rpms.length = 0 then ([], ["installed_rpms is empty"])
      else
        (rpms.take 100).enum.foldl
          (fun (acc : Msgs) iv =>
            let msgs := rpmEntryMsgs iv
            (acc.1 ++ msgs.1, acc.2 ++ msgs.2))
          ([], [])
  | _ => (["installed_rpms must be a list"], [])

/-- `_validate_timestamp`: a truthy timestamp must be a string containing
`"T"`. -/
def validateTimestamp (m : List (String × Json)) : Msgs :=
  let timestamp := (Json.dictGet m "timestamp").getD .null
  if !timestamp.truthy then ([], [])
  else
    match timestamp with
    | .str s =>
        if !(s.toList.contains 'T') then
          ([s!"timestamp must be ISO 8601 format, got: {s}"], [])
        else ([], [])
    | _ => (["timestamp must be a string"], [])

/-- The result of `ManifestValidator.validate`: the returned boolean plus
the `errors` and `warnings` lists left on the validator. -/
structure ValidationResult where
  ok : Bool
  errors : List String
  warnings : List String
deriving Repr, DecidableEq

/-- `ManifestValidator.validate`: runs the seven validation passes in order
and is valid iff no errors were collected. -/
def validate (m : List (String × Json)) : ValidationResult :=
  let parts := [validateRequiredFields m, validateSchemaVersion m, validateOs m,
                validateArch m, validateRepos m, validateRpms m, validateTimestamp m]
  let errors := (parts.map (·.1)).flatten
  let warnings := (parts.map (·.2)).flatten
  { ok := errors.length == 0, errors := errors, warnings := warnings }

end ManifestValidator

/-! ## String helpers (Python `str.endswith`, `in`, `Path.stem`) -/

/-- Does `hay` start with `needle` (on exploded characters, so that proofs
can evaluate it)? -/
def listStartsWith : List Char → List Char → Bool
  | [], _ => true
  | _ :: _, [] => false
  | a :: as, b :: bs => a == b && listStartsWith as bs

/-- Does `hay` contain `needle` as a contiguous run? -/
def listContainsRun (needle : List Char) : List Char → Bool
  | [] => needle.isEmpty
  | hay@(_ :: rest) => listStartsWith needle hay || listContainsRun needle rest

/-- Python `s.endswith(suffix)`. -/
def strEndsWith (s suffix : String) : Bool :=
  listStartsWith suffix.toList.reverse s.toList.reverse

/-- Python `needle in hay` on strings. -/
def strContains (needle hay : String) : Bool :=
  listContainsRun needle.toList hay.toList

/-- Python `s.startswith(p)`. -/
def strStartsWith (s p : String) : Bool :=
  listStartsWith p.toList s.toList

/-- `pathlib.Path(name).stem`: the file name without its last extension. -/
def pathStem (name : String) : String :=
  let parts := name.splitOn "."
  if parts.length ≥ 2 && parts.headD "" != "" then
    String.intercalate "." parts.dropLast
  else name

/-! ## Manifest merger (`src/manifest_tools/merger.py`) -/

namespace ManifestMerger

/-- A manifest file as seen by the merger: its file name and the result of
`json.load` on its text (`none` when the text is not valid JSON, in which
case `json.load` raises `json.JSONDecodeError`). -/
structure ManifestFile where
  name : String
  content : Option Json
deriving Repr

/-- The mutable state of a `ManifestMerger`. -/
structure Merger where
  os_major : Int
  manifests : List Json
  manifest_hashes : List (Json × String)
deriving Repr

/-- An exception escaping `add_manifest`. -/
inductive AddError where
  | jsonDecodeError : AddError
  | attributeError : AddError
  | typeError : AddError
deriving Repr, DecidableEq

/-- `ManifestMerger.__init__`: rejects an OS major outside `(8, 9)` with a
`ValueError` before any state is created. -/
def mkMerger (os_major : Int) : Except String Merger :=
  if !(os_major == 8 || os_major == 9) then
    .error s!"OS major version must be 8 or 9, got: {os_major}"
  else
    .ok { os_major := os_major, manifests := [], manifest_hashes := [] }

/-- `manifest.get("os", \x7b\x7d).get("major")`: `AttributeError` when the
manifest or its `os` field is not a dict. -/
def manifestOsMajor (manifest : Json) : Except AddError (Option Json) :=
  match manifest with
  | .obj fields =>
      match (Json.dictGet fields "os").getD (.obj []) with
      | .obj osFields => .ok (Json.dictGet osFields "major")
      | _ => .error .attributeError
  | _ => .error .attributeError

/-- Insertion-order-preserving dict update (`d[k] = v` on a Python dict). -/
def dictSet (l : List (Json × String)) (k : Json) (v : String) : List (Json × String) :=
  match l with
  | [] => [(k, v)]
  | (k', v') :: rest => if k' == k then (k', v) :: rest else (k', v') :: dictSet rest k v

/-- `d.get(k, "")` on the `manifest_hashes` dict. -/
def hashesGet (l : List (Json × String)) (k : Json) : String :=
  match l.find? (fun kv => kv.1 == k) with
  | some kv => kv.2
  | none => ""

/-- `manifest.get("host_id", path.stem)` (line 55 of `merger.py`). -/
def hostIdOf (manifest : Json) (stem : String) : Json :=
  match manifest with
  | .obj fields => Json.dictGetD fields "host_id" (.str stem)
  | _ => .str stem

/-- `ManifestMerger.add_manifest`.  `contentHash` abstracts
`hashlib.sha256(json.dumps(manifest, sort_keys=True).encode()).hexdigest()`:
a deterministic function of the parsed manifest; every theorem below holds
for an arbitrary such function.  The dict assignment
`self.manifest_hashes[host_id] = …` raises `TypeError` when `host_id` is an
unhashable JSON value (list/dict), before any state is mutated. -/
def addManifest (contentHash : Json → String) (m : Merger) (f : ManifestFile) :
    Except AddError (Merger × Bool) :=
  match f.content with
  | none => .error .jsonDecodeError
  | some manifest =>
    match manifestOsMajor manifest with
    | .error e => .error e
    | .ok major? =>
      if !(Json.eqIntOpt major? m.os_major) then
        .ok (m, false)
      else
        let manifest_hash := contentHash manifest
        let host_id := hostIdOf manifest (pathStem f.name)
        if !host_id.hashable then .error .typeError
        else
          .ok ({ m with
                  manifest_hashes := dictSet m.manifest_hashes host_id
                    ("sha256:" ++ manifest_hash),
                  manifests := m.manifests ++ [manifest] },
               true)

/-- One step of directory ingestion in the first pass (no exception
handling). -/
def addCounted (contentHash : Json → String) (acc : Merger × Nat) (f : ManifestFile) :
    Except AddError (Merger × Nat) :=
  match addManifest contentHash acc.1 f with
  | .error e => .error e
  | .ok (m', accepted) => .ok (m', acc.2 + if accepted then 1 else 0)

/-- One step of directory ingestion in the second pass
(`except (json.JSONDecodeError, KeyError): continue`). -/
def addCountedCaught (contentHash : Json → String) (acc : Merger × Nat) (f : ManifestFile) :
    Except AddError (Merger × Nat) :=
  match addManifest contentHash acc.1 f with
  | .error .jsonDecodeError => .ok acc
  | .error e => .error e
  | .ok (m', accepted) => .ok (m', acc.2 + if accepted then 1 else 0)

/-- `ManifestMerger.add_manifests_from_directory` over the directory's file
list: first every `*-manifest.json` file (exceptions propagate), then every
other `*.json` file whose name does not contain `-manifest` (decode errors
skipped). -/
def addManifestsFromDirectory (contentHash : Json → String) (m : Merger)
    (files : List ManifestFile) : Except AddError (Merger × Nat) := do
  let acc1 ← (files.filter (fun f => strEndsWith f.name "-manifest.json")).foldlM
    (addCounted contentHash) (m, 0)
  let acc2 ← (files.filter (fun f =>
      strEndsWith f.name ".json" && !(strContains "-manifest" f.name))).foldlM
    (addCountedCaught contentHash) acc1
  return acc2

/-- `set.add` on an insertion-ordered model of a Python set. -/
def setAdd (s : List Json) (v : Json) : List Json :=
  if s.contains v then s else s ++ [v]

/-- `all_packages[name].add(nevra)` on the insertion-ordered model of
`defaultdict(set)`. -/
def rpmsInsert : List (Json × List Json) → Json → Json → List (Json × List Json)
  | [], n, v => [(n, [v])]
  | (k, s) :: rest, n, v =>
      if k == n then (k, setAdd s v) :: rest else (k, s) :: rpmsInsert rest n v

/-- One RPM entry of `get_merged_installed_rpms`'s inner loop. -/
def mergeRpmStep (acc : List (Json × List Json)) (rpm : Json) : List (Json × List Json) :=
  let name := rpm.getD "name" (.str "")
  let nevra := rpm.getD "nevra" (.str "")
  if name.truthy && nevra.truthy then rpmsInsert acc name nevra else acc

/-- One manifest of `get_merged_installed_rpms`'s outer loop. -/
def mergeManifestRpms (acc : List (Json × List Json)) (manifest : Json) :
    List (Json × List Json) :=
  ((manifest.getD "installed_rpms" (.arr [])).iterList).foldl mergeRpmStep acc

/-- `ManifestMerger.get_merged_installed_rpms`: package name → set of
NEVRAs seen, built fresh from the accepted manifests. -/
def getMergedInstalledRpms (m : Merger) : List (Json × List Json) :=
  m.manifests.foldl mergeManifestRpms []

/-- `package_hosts[name].append(host_id)` on the insertion-ordered model of
`defaultdict(list)`. -/
def hostsInsert : List (Json × List Json) → Json → Json → List (Json × List Json)
  | [], n, h => [(n, [h])]
  | (k, s) :: rest, n, h =>
      if k == n then (k, s ++ [h]) :: rest else (k, s) :: hostsInsert rest n h

/-- `ManifestMerger.get_package_to_hosts_map`. -/
def getPackageToHostsMap (m : Merger) : List (Json × List Json) :=
  m.manifests.foldl (fun acc manifest =>
    let host_id := manifest.getD "host_id" (.str "unknown")
    ((manifest.getD "installed_rpms" (.arr [])).iterList).foldl (fun acc rpm =>
      let name := rpm.getD "name" (.str "")
      if name.truthy then hostsInsert acc name host_id else acc) acc) []

/-- One row of `ManifestMerger.get_host_summary`. -/
structure HostSummary where
  host_id : Json
  manifest_hash : String
  os_minor : Json
  arch : Json
  installed_count : Nat
  timestamp : Json
deriving Repr

/-- `ManifestMerger.get_host_summary`: one summary row per accepted
manifest, in ingestion order. -/
def getHostSummary (m : Merger) : List HostSummary :=
  m.manifests.map (fun manifest =>
    let host_id := manifest.getD "host_id" (.str "unknown")
    { host_id := host_id
      manifest_hash := hashesGet m.manifest_hashes host_id
      os_minor := (manifest.getD "os" (.obj [])).getD "minor" (.num 0)
      arch := manifest.getD "arch" (.str "x86_64")
      installed_count := ((manifest.getD "installed_rpms" (.arr [])).iterList).length
      timestamp := manifest.getD "timestamp" (.str "") })

/-- One merger call in a call sequence: a single `add_manifest` or one
`add_manifests_from_directory` over a directory listing. -/
inductive MergeOp where
  | file : ManifestFile → MergeOp
  | dir : List ManifestFile → MergeOp

/-- Run one merger call, keeping the state and discarding the returned
flag/count (which the caller only reports). -/
def runOp (contentHash : Json → String) (m : Merger) : MergeOp → Except AddError Merger
  | .file f => (addManifest contentHash m f).map (·.1)
  | .dir files => (addManifestsFromDirectory contentHash m files).map (·.1)

/-- Run a sequence of merger calls. -/
def runOps (contentHash : Json → String) (m : Merger) (ops : List MergeOp) :
    Except AddError Merger :=
  ops.foldlM (runOp contentHash) m

end ManifestMerger

/-! ## More string helpers (Python `strip`, `split`, `rsplit`) -/

/-- Worker for whitespace splitting, carrying the current word reversed. -/
def splitWsAux : List Char → List Char → List String
  | [], acc => if acc.isEmpty then [] else [String.mk acc.reverse]
  | c :: cs, acc =>
      if c.isWhitespace then
        if acc.isEmpty then splitWsAux cs []
        else String.mk acc.reverse :: splitWsAux cs []
      else splitWsAux cs (c :: acc)

/-- Python `s.split()` (no argument): split on whitespace runs, dropping
empty fields. -/
def pySplitWs (s : String) : List String := splitWsAux s.toList []

/-- Python `s.strip()`. -/
def strTrim (s : String) : String :=
  String.mk (((s.toList.dropWhile Char.isWhitespace).reverse.dropWhile
    Char.isWhitespace).reverse)

/-- Worker for single-character splitting, carrying the current field
reversed. -/
def splitOnCharAux (sep : Char) : List Char → List Char → List String
  | [], acc => [String.mk acc.reverse]
  | c :: cs, acc =>
      if c == sep then String.mk acc.reverse :: splitOnCharAux sep cs []
      else splitOnCharAux sep cs (c :: acc)

/-- Python `s.split(sep)` for a one-character separator (keeps empty
fields). -/
def splitOnChar (sep : Char) (s : String) : List String :=
  splitOnCharAux sep s.toList []

/-- Python `s.rsplit(sep, 1)` as a pair, `none` when `sep` does not occur. -/
def rsplitOnce (s : String) (sep : Char) : Option (String × String) :=
  let parts := splitOnChar sep s
  if parts.length ≥ 2 then
    some (String.intercalate (String.singleton sep) parts.dropLast, parts.getLastD "")
  else none

/-- Python `s.rsplit(sep, 1)[0]` with a fallback to the whole string when
`sep` does not occur. -/
def rsplitHead (s : String) (sep : Char) : String :=
  match rsplitOnce s sep with
  | some (a, _) => a
  | none => s

/-- Python `s.split(sep, 1)` as a pair, `none` when `sep` does not occur. -/
def splitOnceLeft (s : String) (sep : Char) : Option (String × String) :=
  match splitOnChar sep s with
  | [] => none
  | [_] => none
  | p :: ps => some (p, String.intercalate (String.singleton sep) ps)

/-- Python `int(s)` on a string of digits. -/
def digitsToNat (s : String) : Nat :=
  s.toList.foldl (fun n c => n * 10 + (c.toNat - 48)) 0

/-- Python `s.isdigit()`. -/
def strIsDigit (s : String) : Bool :=
  !s.toList.isEmpty && s.toList.all Char.isDigit

/-- `set.add` on an insertion-ordered model of a Python set of strings. -/
def setAddStr (s : List String) (v : String) : List String :=
  if s.contains v then s else s ++ [v]

/-! ## Dependency resolver (`src/bundle_builder/resolver.py`) -/

namespace DependencyResolver

/-- The `ResolvedPackage` dataclass. -/
structure ResolvedPackage where
  name : String
  epoch : String
  version : String
  release : String
  arch : String
  nevra : String
  repo_id : String
  package_type : String
  size_bytes : Nat := 0
  advisory_id : Option String := none
  required_by : List String := []
deriving Repr, DecidableEq

/-- Outputs of the external `dnf` invocations the resolver makes.  The
per-package repoquery answers are finite tables (a real repository knows
finitely many packages); a name outside the table yields no rows and no
requirements, as `dnf repoquery` does for an unknown package. -/
structure DnfOracle where
  /-- stdout lines of `dnf check-update --quiet`. -/
  checkUpdateLines : List String
  /-- its return code (100 means updates available). -/
  checkUpdateCode : Int
  /-- its stderr (only quoted in the error message). -/
  checkUpdateStderr : String
  /-- `dnf updateinfo list --security --available`: `none` models
  `subprocess.TimeoutExpired`, otherwise return code and stdout lines. -/
  updateinfo : Option (Int × List String)
  /-- the rendering of the `TimeoutExpired` exception in the error
  message. -/
  updateinfoTimeoutMsg : String
  /-- stdout and stderr lines of the `dnf download --resolve --downloadonly
  --assumeno -v` dry run. -/
  downloadDryRunLines : List String
  /-- per-package `dnf repoquery --latest-limit=1 --queryformat …` stdout
  lines; the entry is `none` when the call exits non-zero
  (`check=True` raises `CalledProcessError`). -/
  repoLatestTbl : List (String × Option (List String))
  /-- per-package `dnf repoquery --requires --resolve …` stdout lines (no
  `check=True`: a failing call just contributes empty output). -/
  repoRequiresTbl : List (String × List String)

/-- Rows reported for one package by the latest-version repoquery. -/
def DnfOracle.latest (o : DnfOracle) (n : String) : Option (List String) :=
  match o.repoLatestTbl.find? (fun e => e.1 == n) with
  | some e => e.2
  | none => some []

/-- Requirement lines reported for one package. -/
def DnfOracle.requiresOf (o : DnfOracle) (n : String) : List String :=
  match o.repoRequiresTbl.find? (fun e => e.1 == n) with
  | some e => e.2
  | none => []

/-- `DependencyResolver._get_available_updates`: parse `dnf check-update`
output, keeping names that are in the installed set.  Returns the update
set (insertion-ordered) and the accumulated errors. -/
def getAvailableUpdates (oracle : DnfOracle) (installed : List String) :
    List String × List String :=
  if !(oracle.checkUpdateCode == 0 || oracle.checkUpdateCode == 100) then
    ([], [s!"dnf check-update failed: {oracle.checkUpdateStderr}"])
  else
    (oracle.checkUpdateLines.foldl (fun updates rawLine =>
      let line := strTrim rawLine
      if line == "" || strStartsWith line "Obsoleting" then updates
      else
        let parts := pySplitWs line
        if parts.length ≥ 2 then
          let pkg_with_arch := parts.headD ""
          let pkg_name := rsplitHead pkg_with_arch '.'
          if installed.contains pkg_name then setAddStr updates pkg_name else updates
        else updates) [], [])

/-- `DependencyResolver._get_security_updates`: parse
`dnf updateinfo list --security --available` output. -/
def getSecurityUpdates (oracle : DnfOracle) : List String × List String :=
  match oracle.updateinfo with
  | none => ([], [s!"Failed to get security updates: {oracle.updateinfoTimeoutMsg}"])
  | some (code, lines) =>
      if code != 0 then ([], [])
      else
        (lines.foldl (fun security_pkgs line =>
          let parts := pySplitWs line
          if parts.length ≥ 3 then
            let pkg_with_arch := parts.getD 2 ""
            let pkg_name := rsplitHead pkg_with_arch '.'
            let pkg_name :=
              if strContains "-" pkg_name then (splitOnChar '-' pkg_name).headD ""
              else pkg_name
            setAddStr security_pkgs pkg_name
          else security_pkgs) [], [])

/-- `DependencyResolver._parse_package_line`: best-effort NEVRA
decomposition of one transcript line. -/
def parsePackageLine (line : String) : Option ResolvedPackage :=
  let parts := pySplitWs line
  if parts.length < 2 then none
  else
    let nevra := parts.headD ""
    let repo_id := parts.getD 1 "unknown"
    match rsplitOnce nevra '.' with
    | none => none
    | some (base, arch) =>
      match rsplitOnce base '-' with
      | none => none
      | some (base2, release) =>
        match rsplitOnce base2 '-' with
        | none => none
        | some (name, version0) =>
          let ev : String × String :=
            match splitOnceLeft version0 ':' with
            | some (e, v) => (e, v)
            | none => ("0", version0)
          some { name := name, epoch := ev.1, version := ev.2, release := release,
                 arch := arch, nevra := nevra, repo_id := repo_id,
                 package_type := "update" }

/-- The transcript-parsing half of `_resolve_dependencies`: the
`in_package_list` flag machine over the dry-run output. -/
def parseDryRunTranscript (lines : List String) : List ResolvedPackage :=
  (lines.foldl (fun (st : Bool × List ResolvedPackage) rawLine =>
    let (inList, acc) := st
    let line := strTrim rawLine
    if strContains "Installing:" line || strContains "Upgrading:" line then (true, acc)
    else if inList && strStartsWith line "Installing dependencies:" then (inList, acc)
    else if inList && line != "" then
      match parsePackageLine line with
      | some pkg => (inList, acc ++ [pkg])
      | none => (inList, acc)
    else (inList, acc)) (false, [])).2

/-- One stdout row of the latest-version repoquery inside
`_resolve_via_repoquery`, appended unless its NEVRA was already
resolved. -/
def parseRepoRow (packages : List String) (resolved : List ResolvedPackage)
    (line : String) : List ResolvedPackage :=
  if strTrim line == "" then resolved
  else
    match splitOnChar '|' line with
    | name :: epoch :: version :: release :: arch :: repo :: size :: _ =>
        let nevra := name ++ "-" ++ epoch ++ ":" ++ version ++ "-" ++ release ++ "." ++ arch
        if resolved.any (fun p => p.nevra == nevra) then resolved
        else
          resolved ++ [{ name := name,
                         epoch := if epoch == "(none)" then "0" else epoch,
                         version := version, release := release, arch := arch,
                         nevra := nevra, repo_id := repo,
                         package_type := if packages.contains name then "update"
                                         else "dependency",
                         size_bytes := if strIsDigit size then digitsToNat size else 0 }]
    | _ => resolved

/-- The worklist of `_resolve_via_repoquery`, with explicit fuel: pop a
name, skip it if already processed, otherwise mark it processed, ingest its
latest-version rows (unless the query failed) and enqueue its unseen
requirement names.  Also returns the trace of names actually queried. -/
def repoqueryLoop (oracle : DnfOracle) (packages : List String) :
    Nat → List String → List String → List ResolvedPackage → List String →
    Option (List ResolvedPackage × List String)
  | _, [], _, resolved, trace => some (resolved, trace)
  | 0, _ :: _, _, _, _ => none
  | fuel + 1, pkg_name :: rest, processed, resolved, trace =>
      if processed.contains pkg_name then
        repoqueryLoop oracle packages fuel rest processed resolved trace
      else
        let processed' := pkg_name :: processed
        let trace' := trace ++ [pkg_name]
        match oracle.latest pkg_name with
        | none => repoqueryLoop oracle packages fuel rest processed' resolved trace'
        | some lines =>
            let resolved' := lines.foldl (parseRepoRow packages) resolved
            let deps := (oracle.requiresOf pkg_name).filterMap (fun dep_line =>
              let dep_name := strTrim dep_line
              if dep_name != "" && !(processed'.contains dep_name) then some dep_name
              else none)
            repoqueryLoop oracle packages fuel (rest ++ deps) processed' resolved' trace'

/-- Fuel that always suffices for `repoqueryLoop`: one step per initially
pending name plus one per requirement line the oracle can ever emit. -/
def repoqueryFuel (oracle : DnfOracle) (packages : List String) : Nat :=
  packages.length + (oracle.repoRequiresTbl.map (fun e => e.2.length)).sum

/-- `DependencyResolver._resolve_via_repoquery`. -/
def resolveViaRepoquery (oracle : DnfOracle) (packages : List String) :
    List ResolvedPackage :=
  match repoqueryLoop oracle packages (repoqueryFuel oracle packages)
      packages [] [] [] with
  | some (resolved, _) => resolved
  | none => []

/-- `DependencyResolver._resolve_dependencies`: transcript parse first,
breadth-first repoquery fallback when it yields nothing. -/
def resolveDependencies (oracle : DnfOracle) (update_packages : List String) :
    List ResolvedPackage :=
  if update_packages.isEmpty then []
  else
    let resolved := parseDryRunTranscript oracle.downloadDryRunLines
    if resolved.isEmpty then resolveViaRepoquery oracle update_packages else resolved

/-- `DependencyResolver.resolve`: updates, security set, closure,
classification; returns the resolved list and the error side-channel. -/
def resolve (oracle : DnfOracle) (installed_packages : List String)
    (prefer_security : Bool) : List ResolvedPackage × List String :=
  let ue := getAvailableUpdates oracle installed_packages
  let updates := ue.1
  if updates.isEmpty then ([], ue.2)
  else
    let se := if prefer_security then getSecurityUpdates oracle else ([], [])
    let security_updates := se.1
    let all_packages := resolveDependencies oracle updates
    let resolved := all_packages.map (fun pkg =>
      { pkg with package_type :=
          if security_updates.contains pkg.name then "security"
          else if updates.contains pkg.name then "update"
          else "dependency" })
    (resolved, ue.2 ++ se.2)

end DependencyResolver

/-! ## Downloader (`src/bundle_builder/downloader.py`) -/

namespace RPMDownloader

/-- The `DownloadResult` dataclass (paths as strings). -/
structure DownloadResult where
  package : DependencyResolver.ResolvedPackage
  success : Bool
  local_path : Option String
  sha256 : Option String
  error : Option String
deriving Repr, DecidableEq

/-- `pathlib.Path(p).name`: the final path component. -/
def pathName (p : String) : String := (splitOnChar '/' p).getLastD p

/-- `sorted(..., key=lambda r: r.package.name)` sorts ascending by package
name. -/
def byNameLe (a b : DownloadResult) : Prop := a.package.name ≤ b.package.name

instance : DecidableRel byNameLe := fun a b =>
  inferInstanceAs (Decidable (a.package.name ≤ b.package.name))

instance : IsTotal DownloadResult byNameLe :=
  ⟨fun a b => le_total a.package.name b.package.name⟩

instance : IsTrans DownloadResult byNameLe :=
  ⟨fun _ _ _ hab hbc => le_trans hab hbc⟩

/-- The line `generate_checksums_file` emits for one result, if any: only a
successful result with a truthy digest and a path contributes. -/
def checksumLine? (r : DownloadResult) : Option String :=
  match r.sha256, r.local_path with
  | some h, some p => if r.success && h != "" then some (h ++ "  " ++ pathName p) else none
  | _, _ => none

/-- `RPMDownloader.generate_checksums_file`: the file's content — results
sorted ascending by package name (Python's `sorted` is stable, as is
insertion sort), one line per kept result, `"\n"`-joined plus one trailing
newline. -/
def generateChecksumsContent (results : List DownloadResult) : String :=
  let sortedResults := results.insertionSort byNameLe
  String.intercalate "\n" (sortedResults.filterMap checksumLine?) ++ "\n"

/-- `RPMDownloader.get_successful_downloads`. -/
def getSuccessfulDownloads (results : List DownloadResult) : List DownloadResult :=
  results.filter (fun r => r.success)

/-- `RPMDownloader.get_failed_downloads`. -/
def getFailedDownloads (results : List DownloadResult) : List DownloadResult :=
  results.filter (fun r => !r.success)

/-- `RPMDownloader.get_total_size`, with `Path.stat().st_size` supplied as a
function of the path. -/
def getTotalSize (fileSize : String → Nat) (results : List DownloadResult) : Nat :=
  results.foldl (fun total r =>
    match r.local_path with
    | some p => if r.success then total + fileSize p else total
    | none => total) 0

end RPMDownloader

/-! ## Bundle builder (`src/bundle_builder/builder.py`) -/

namespace BundleBuilder

/-- `BundleBuilder.SCHEMA_VERSION`. -/
def SCHEMA_VERSION : String := "1.0"

/-- The configuration a constructed `BundleBuilder` holds. -/
structure Builder where
  os_major : Int
  manifest_dir : String
  output_dir : String
  work_dir : String
deriving Repr

/-- `BundleBuilder.__init__`: rejects an OS major outside `(8, 9)` with a
`ValueError` before creating any directory or other state. -/
def mkBuilder (os_major : Int) (manifest_dir output_dir : String)
    (work_dir : Option String) : Except String Builder :=
  if !(os_major == 8 || os_major == 9) then
    .error s!"OS major must be 8 or 9, got: {os_major}"
  else
    .ok { os_major := os_major, manifest_dir := manifest_dir,
          output_dir := output_dir, work_dir := work_dir.getD "/tmp/bundle-build" }

/-- One entry of `manifests_used` in the metadata document. -/
structure ManifestUsed where
  host_id : Json
  manifest_hash : String
  os_minor : Json
deriving Repr

/-- The `packages` summary block of the metadata document. -/
structure PackageCounts where
  total_count : Nat
  update_count : Nat
  security_count : Nat
  dependency_count : Nat
  size_bytes : Nat
deriving Repr, DecidableEq

/-- One entry of `package_list` in the metadata document. -/
structure PackageEntry where
  nevra : String
  type : String
  sha256 : Option String
  size_bytes : Nat
  required_by : List Json
  advisory_id : Option String
deriving Repr

/-- The `checksums` block of the metadata document. -/
structure BundleChecksums where
  algorithm : String
  bundle_hash : String
deriving Repr, DecidableEq

/-- The metadata document `_build_metadata` returns (and `build` serializes
into the bundle as `metadata.json`). -/
structure Metadata where
  schema_version : String
  bundle_id : String
  os_major : Int
  created_at : String
  builder_host : String
  manifests_used : List ManifestUsed
  packages : PackageCounts
  package_list : List PackageEntry
  host_package_map : List (Json × List String)
  checksums : BundleChecksums
  build_log : String
deriving Repr

/-- Insertion-order-preserving dict update for the `host_package_map`. -/
def hostMapSet (l : List (Json × List String)) (k : Json) (v : List String) :
    List (Json × List String) :=
  match l with
  | [] => [(k, v)]
  | (k', v') :: rest => if k' == k then (k', v) :: rest else (k', v') :: hostMapSet rest k v

/-- `BundleBuilder._build_metadata`, with the filesystem's
`Path.stat().st_size` supplied as a function of the path. -/
def buildMetadata (bundle_id : String) (os_major : Int) (created_at : String)
    (builder_host : String) (merger : ManifestMerger.Merger)
    (resolved : List DependencyResolver.ResolvedPackage)
    (results : List RPMDownloader.DownloadResult) (fileSize : String → Nat) :
    Metadata :=
  let host_summary := ManifestMerger.getHostSummary merger
  let package_hosts := ManifestMerger.getPackageToHostsMap merger
  let update_count := (resolved.filter (fun p => p.package_type == "update")).length
  let security_count := (resolved.filter (fun p => p.package_type == "security")).length
  let dependency_count := (resolved.filter (fun p => p.package_type == "dependency")).length
  let package_list := (RPMDownloader.getSuccessfulDownloads results).map (fun result =>
    let pkg := result.package
    let hosts_needing :=
      match package_hosts.find? (fun kv => kv.1 == Json.str pkg.name) with
      | some kv => kv.2
      | none => []
    { nevra := pkg.nevra
      type := pkg.package_type
      sha256 := result.sha256
      size_bytes := match result.local_path with
                    | some p => fileSize p
                    | none => 0
      required_by := hosts_needing
      advisory_id := pkg.advisory_id : PackageEntry })
  let host_package_map := host_summary.foldl (fun acc h =>
    hostMapSet acc h.host_id
      ((package_list.filter (fun pkg => pkg.required_by.contains h.host_id)).map
        (fun pkg => pkg.nevra))) []
  { schema_version := SCHEMA_VERSION
    bundle_id := bundle_id
    os_major := os_major
    created_at := created_at
    builder_host := builder_host
    manifests_used := host_summary.map (fun h =>
      { host_id := h.host_id, manifest_hash := h.manifest_hash, os_minor := h.os_minor })
    packages := { total_count := package_list.length
                  update_count := update_count
                  security_count := security_count
                  dependency_count := dependency_count
                  size_bytes := RPMDownloader.getTotalSize fileSize results }
    package_list := package_list
    host_package_map := host_package_map
    checksums := { algorithm := "sha256", bundle_hash := "" }
    build_log := "build.log" }

/-- Everything `build` consumes from outside pure computation: clock
strings, the merger state after manifest loading, resolver and downloader
outputs, filesystem sizes, compressor availability and the digest of the
finished archive.  Per-entry log timestamps (`_log`'s `[{now}] ` prefix)
are abstracted away: log entries are modelled as their messages. -/
structure BuildEnv where
  builder : Builder
  timestampCompact : String
  timestampIso : String
  builderHost : String
  mergerAfterLoad : ManifestMerger.Merger
  manifestCount : Nat
  resolved : List DependencyResolver.ResolvedPackage
  resolverErrors : List String
  downloadResults : List RPMDownloader.DownloadResult
  fileSize : String → Nat
  zstdOk : Bool
  archiveHash : String

/-- What a successful `build` leaves behind: the bundle id, the metadata
document and build-log lines sealed inside the archive, the checksums file
content, the in-memory build log at return time, and the archive's path and
logged digest. -/
structure BuildOutcome where
  bundleId : String
  sealedMetadata : Metadata
  sealedChecksums : String
  sealedLogLines : List String
  finalLog : List String
  archivePath : String
  archiveHash : String

/-- `BundleBuilder.build`: the strictly sequential pipeline of steps 1-9.
Failure (zero accepted manifests) aborts with the `RuntimeError` message;
on success the metadata and the build-log file are fixed before the archive
is created, and the archive's own hash is only appended to the in-memory
log afterwards. -/
def build (env : BuildEnv) : Except String BuildOutcome :=
  let os_major := env.builder.os_major
  let bundle_id := s!"bundle-rhel{os_major}-" ++ env.timestampCompact
  let log1 := [s!"Starting bundle build: {bundle_id}",
               "Step 1: Loading manifests",
               s!"  Loaded {env.manifestCount} manifests"]
  if env.manifestCount == 0 then
    .error s!"No RHEL {os_major} manifests found"
  else
    let merged_rpms := ManifestMerger.getMergedInstalledRpms env.mergerAfterLoad
    let package_count := merged_rpms.length
    let resolved := env.resolved
    let log2 := log1 ++ ["Step 2: Merging installed packages",
                         s!"  Found {package_count} unique packages",
                         "Step 3: Resolving updates and dependencies",
                         s!"  Resolved {resolved.length} packages"]
      ++ env.resolverErrors.map (fun e => s!"  Warning: {e}")
      ++ (if resolved.isEmpty then ["  No updates available - creating empty bundle"] else [])
    let results := if resolved.isEmpty then [] else env.downloadResults
    let success_count := (RPMDownloader.getSuccessfulDownloads results).length
    let fail_count := (RPMDownloader.getFailedDownloads results).length
    let log3 := log2 ++ ["Step 4: Downloading RPMs"]
      ++ (if resolved.isEmpty then []
          else [s!"  Downloaded: {success_count}, Failed: {fail_count}"]
            ++ (RPMDownloader.getFailedDownloads results).map (fun f =>
                 let name := f.package.name
                 let err := f.error.getD "None"
                 s!"  Failed: {name} - {err}"))
    let checksums := RPMDownloader.generateChecksumsContent results
    let metadata := buildMetadata bundle_id os_major env.timestampIso env.builderHost
      env.mergerAfterLoad resolved results env.fileSize
    let log4 := log3 ++ ["Step 5: Generating repodata", "  Repodata generated",
                         "Step 6: Generating checksums",
                         "Step 7: Building metadata", "  Metadata written",
                         "Step 8: Finalizing"]
    let sealedLogLines := log4
    let archive_path := env.builder.output_dir ++ "/" ++ bundle_id
      ++ (if env.zstdOk then ".tar.zst" else ".tar.gz")
    let log5 := log4 ++ ["Step 9: Creating archive",
                         "  Bundle created: " ++ archive_path]
    let bundle_hash := env.archiveHash
    let log6 := log5 ++ ["  SHA256: " ++ bundle_hash]
    .ok { bundleId := bundle_id
          sealedMetadata := metadata
          sealedChecksums := checksums
          sealedLogLines := sealedLogLines
          finalLog := log6
          archivePath := archive_path
          archiveHash := bundle_hash }

end BundleBuilder

/-- The line `checksumLine?` produces for a kept result, written directly in
terms of its fields (used to state what the checksums file contains). -/
def RPMDownloader.checksumLineOf (r : RPMDownloader.DownloadResult) : String :=
  r.sha256.getD "" ++ "  " ++ RPMDownloader.pathName (r.local_path.getD "")

/-! ## Concrete fixtures used by witnesses -/

/-- A well-formed RHEL 9 manifest used by several witnesses. -/
def fixtureManifest : Json :=
  .obj [("schema_version", .str "1.0"),
        ("host_id", .str "web-01"),
        ("os", .obj [("major", .num 9), ("minor", .num 6), ("name", .str "rhel")]),
        ("arch", .str "x86_64"),
        ("enabled_repos", .arr [.obj [("id", .str "baseos"), ("name", .str "BaseOS")]]),
        ("installed_rpms", .arr [.obj [("name", .str "bash"),
                                       ("nevra", .str "bash-0:5.1.8-9.el9.x86_64"),
                                       ("epoch", .str "0"), ("version", .str "5.1.8"),
                                       ("release", .str "9.el9"), ("arch", .str "x86_64")]]),
        ("timestamp", .str "2024-01-01T00:00:00Z")]

/-- The manifest file wrapping `fixtureManifest`. -/
def fixtureFile : ManifestMerger.ManifestFile :=
  { name := "web-01-manifest.json", content := some fixtureManifest }

/-- A manifest valid except that `os.major` is JSON `null`. -/
def nullMajorManifest : List (String × Json) :=
  [("schema_version", .str "1.0"),
   ("host_id", .str "web-02"),
   ("os", .obj [("major", .null), ("minor", .num 6), ("name", .str "rhel")]),
   ("arch", .str "x86_64"),
   ("enabled_repos", .arr [.obj [("id", .str "baseos"), ("name", .str "BaseOS")]]),
   ("installed_rpms", .arr [.obj [("name", .str "bash"),
                                  ("epoch", .str "0"), ("version", .str "5.1.8"),
                                  ("release", .str "9.el9"), ("arch", .str "x86_64")]]),
   ("timestamp", .str "2024-01-01T00:00:00Z")]

/-- A dnf oracle reporting one updatable package (`openssl`), one security
advisory for it, and a parsable dry-run transcript. -/
def fixtureOracle : DependencyResolver.DnfOracle :=
  { checkUpdateLines := ["openssl.x86_64   1:3.0.7-28.el9   baseos"]
    checkUpdateCode := 100
    checkUpdateStderr := ""
    updateinfo := some (0, ["RHSA-2024:0001 Important/Sec. openssl-3.0.7-28.el9.x86_64"])
    updateinfoTimeoutMsg := ""
    downloadDryRunLines := ["Upgrading:",
                            "openssl-1:3.0.7-28.el9.x86_64   baseos   1.1 M"]
    repoLatestTbl := []
    repoRequiresTbl := [] }

/-- The package `fixtureOracle`'s transcript resolves to, already
classified. -/
def fixtureResolvedPkg : DependencyResolver.ResolvedPackage :=
  { name := "openssl", epoch := "1", version := "3.0.7", release := "28.el9",
    arch := "x86_64", nevra := "openssl-1:3.0.7-28.el9.x86_64",
    repo_id := "baseos", package_type := "security" }

/-- A successful and a failed download result for witnesses. -/
def fixtureDownloadOk : RPMDownloader.DownloadResult :=
  { package := { fixtureResolvedPkg with name := "openssl", package_type := "security" }
    success := true
    local_path := some "/work/rpms/openssl-1:3.0.7-28.el9.x86_64.rpm"
    sha256 := some "ab12"
    error := none }

/-- The failed half of the download fixture. -/
def fixtureDownloadFail : RPMDownloader.DownloadResult :=
  { package := { fixtureResolvedPkg with
                   name := "bash"
                   nevra := "bash-0:5.1.8-9.el9.x86_64"
                   package_type := "update" }
    success := false
    local_path := none
    sha256 := none
    error := some "Package not found in downloads" }

/-- A build environment on which `build` succeeds. -/
def fixtureBuildEnv : BundleBuilder.BuildEnv :=
  { builder := { os_major := 9, manifest_dir := "/in", output_dir := "/out",
                 work_dir := "/tmp/bundle-build" }
    timestampCompact := "20240101T000000Z"
    timestampIso := "2024-01-01T00:00:00+00:00"
    builderHost := "builder-01"
    mergerAfterLoad := { os_major := 9, manifests := [fixtureManifest],
                         manifest_hashes := [(.str "web-01", "sha256:h")] }
    manifestCount := 1
    resolved := [fixtureResolvedPkg]
    resolverErrors := []
    downloadResults := [fixtureDownloadOk]
    fileSize := fun _ => 1024
    zstdOk := true
    archiveHash := "feedc0de"
    : BundleBuilder.BuildEnv }

/-- The outcome of `build` on `fixtureBuildEnv` (the fallback default is
never used). -/
def fixtureBuildOutcome : BundleBuilder.BuildOutcome :=
  match BundleBuilder.build fixtureBuildEnv with
  | .ok o => o
  | .error _ =>
      { bundleId := "", sealedMetadata :=
          { schema_version := "", bundle_id := "", os_major := 0, created_at := "",
            builder_host := "", manifests_used := [],
            packages := { total_count := 0, update_count := 0, security_count := 0,
                          dependency_count := 0, size_bytes := 0 },
            package_list := [], host_package_map := [],
            checksums := { algorithm := "", bundle_hash := "" }, build_log := "" },
        sealedChecksums := "", sealedLogLines := [], finalLog := [],
        archivePath := "", archiveHash := "" }

/-- A manifest file whose text is not valid JSON. -/
def malformedFile : ManifestMerger.ManifestFile :=
  { name := "web-02-manifest.json", content := none }

/-- A valid RPM entry used to build long `installed_rpms` lists. -/
def sampleRpmEntry : Json :=
  .obj [("name", .str "bash"), ("epoch", .str "0"), ("version", .str "5.1.8"),
        ("release", .str "9.el9"), ("arch", .str "x86_64")]

/-- The manifest fields shared by the two large sampling fixtures. -/
def samplingRest : List (String × Json) :=
  [("schema_version", .str "1.0"),
   ("host_id", .str "web-03"),
   ("os", .obj [("major", .num 9), ("minor", .num 6), ("name", .str "rhel")]),
   ("arch", .str "x86_64"),
   ("enabled_repos", .arr []),
   ("timestamp", .str "2024-01-01T00:00:00Z")]

/-- A manifest with exactly 100 RPM entries. -/
def samplingManifest1 : List (String × Json) :=
  ("installed_rpms", .arr (List.replicate 100 sampleRpmEntry)) :: samplingRest

/-- The same manifest with garbage appended beyond index 99. -/
def samplingManifest2 : List (String × Json) :=
  ("installed_rpms", .arr (List.replicate 100 sampleRpmEntry ++ [.null, .num 3]))
    :: samplingRest

/-- Does the merged-RPM accumulator already record `nevra` under `name`
(the dict has the key and its set has the member)? -/
def ManifestMerger.rpmsContains : List (Json × List Json) → Json → Json → Bool
  | [], _, _ => false
  | (k, s) :: rest, n, v =>
      if k == n then s.contains v else ManifestMerger.rpmsContains rest n v

/-- The merger state after accepting `fixtureFile` once from a fresh OS-9
merger. -/
def c5m1 : ManifestMerger.Merger :=
  match ManifestMerger.addManifest (fun _ => "h")
      { os_major := 9, manifests := [], manifest_hashes := [] } fixtureFile with
  | .ok (m, _) => m
  | .error _ => { os_major := 9, manifests := [], manifest_hashes := [] }

/-- A structurally fine manifest for the wrong OS major (8, not 9). -/
def wrongOsFile : ManifestMerger.ManifestFile :=
  { name := "web-08-manifest.json"
    content := some (.obj [("host_id", .str "web-08"),
                           ("os", .obj [("major", .num 8), ("minor", .num 10),
                                        ("name", .str "rhel")])]) }

/-- Requirement lines of one package per an abstract repoquery table. -/
def DependencyResolver.tblRequires (tbl : List (String × List String))
    (n : String) : List String :=
  match tbl.find? (fun e => e.1 == n) with
  | some e => e.2
  | none => []

/-- Total length of the requirement lists of table entries whose key has
not yet been processed: the termination measure of the worklist. -/
def DependencyResolver.requiresWeight (tbl : List (String × List String))
    (processed : List String) : Nat :=
  ((tbl.filter (fun e => !(processed.contains e.1))).map
    (fun e => e.2.length)).sum

/-- A parseable, OS-matching manifest whose `host_id` is a JSON array — an
unhashable dict key in Python. -/
def unhashableHostFile : ManifestMerger.ManifestFile :=
  { name := "weird.json"
    content := some (.obj [("host_id", .arr [.str "a"]),
                           ("os", .obj [("major", .num 9), ("minor", .num 6),
                                        ("name", .str "rhel")])]) }

/-! ## Theorems -/

mutual

theorem Json.beq_refl : (j : Json) → Json.beq j j = true
  | .null => rfl
  | .bool _ => by simp [Json.beq]
  | .num _ => by simp [Json.beq]
  | .str _ => by simp [Json.beq]
  | .arr a => by simpa [Json.beq] using Json.beqList_refl a
  | .obj a => by simpa [Json.beq] using Json.beqFields_refl a

theorem Json.beqList_refl : (l : List Json) → Json.beqList l l = true
  | [] => rfl
  | a :: as => by simp [Json.beqList, Json.beq_refl a, Json.beqList_refl as]

theorem Json.beqFields_refl : (l : List (String × Json)) → Json.beqFields l l = true
  | [] => rfl
  | (_, v) :: as => by simp [Json.beqFields, Json.beq_refl v, Json.beqFields_refl as]

end

theorem Json.beq_self (j : Json) : (j == j) = true := Json.beq_refl j

/-- Claim C10: for every `os_major` argument outside 8 and 9, constructing a
`ManifestMerger` or a `BundleBuilder` raises a `ValueError` before any other
work is performed, so no merger or builder instance with an unsupported
target OS major can ever exist. -/
theorem c10_constructors_reject_unsupported_os_major
    (n : Int) (manifest_dir output_dir : String) (work_dir : Option String)
    (h8 : n ≠ 8) (h9 : n ≠ 9) :
    (∃ msg, ManifestMerger.mkMerger n = .error msg) ∧
    (∃ msg, BundleBuilder.mkBuilder n manifest_dir output_dir work_dir = .error msg) ∧
    (∀ m, ManifestMerger.mkMerger n ≠ .ok m) ∧
    (∀ b, BundleBuilder.mkBuilder n manifest_dir output_dir work_dir ≠ .ok b) := by
  have hb8 : (n == 8) = false := by simpa using h8
  have hb9 : (n == 9) = false := by simpa using h9
  have hm : ManifestMerger.mkMerger n =
      .error s!"OS major version must be 8 or 9, got: {n}" := by
    simp [ManifestMerger.mkMerger, hb8, hb9]
  have hb : BundleBuilder.mkBuilder n manifest_dir output_dir work_dir =
      .error s!"OS major must be 8 or 9, got: {n}" := by
    simp [BundleBuilder.mkBuilder, hb8, hb9]
  refine ⟨⟨_, hm⟩, ⟨_, hb⟩, fun m hcon => ?_, fun b hcon => ?_⟩
  · rw [hm] at hcon
    cases hcon
  · rw [hb] at hcon
    cases hcon

/-- Witness for C10 at the concrete unsupported major 7. -/
theorem c10_witness :
    (∃ msg, ManifestMerger.mkMerger 7 = .error msg) ∧
    (∃ msg, BundleBuilder.mkBuilder 7 "/in" "/out" none = .error msg) ∧
    (∀ m, ManifestMerger.mkMerger 7 ≠ .ok m) ∧
    (∀ b, BundleBuilder.mkBuilder 7 "/in" "/out" none ≠ .ok b) :=
  c10_constructors_reject_unsupported_os_major 7 "/in" "/out" none
    (by decide) (by decide)

/-- Claim C1: every package in the resolved closure is classified by strict
priority — `security` if its name is in the security-advisory set (checked
first), else `update` if it is in the plain update set, else `dependency`;
a name in both sets is always `security`, and each package carries exactly
the one classification this rule dictates. -/
theorem c1_resolve_classifies_by_strict_priority
    (oracle : DependencyResolver.DnfOracle) (installed : List String)
    (pkg : DependencyResolver.ResolvedPackage)
    (hmem : pkg ∈ (DependencyResolver.resolve oracle installed true).1) :
    pkg.package_type =
      (if (DependencyResolver.getSecurityUpdates oracle).1.contains pkg.name then "security"
       else if (DependencyResolver.getAvailableUpdates oracle installed).1.contains pkg.name
       then "update"
       else "dependency") ∧
    ((DependencyResolver.getSecurityUpdates oracle).1.contains pkg.name = true →
      pkg.package_type = "security") ∧
    ((DependencyResolver.getSecurityUpdates oracle).1.contains pkg.name = false →
     (DependencyResolver.getAvailableUpdates oracle installed).1.contains pkg.name = true →
      pkg.package_type = "update") := by
  simp only [DependencyResolver.resolve] at hmem
  by_cases hemp : (DependencyResolver.getAvailableUpdates oracle installed).1.isEmpty
  · simp [hemp] at hmem
  · simp only [hemp, if_true, if_false, Bool.false_eq_true, ite_false, List.mem_map] at hmem
    obtain ⟨q, _, hq⟩ := hmem
    subst hq
    by_cases hS : q.name ∈ (DependencyResolver.getSecurityUpdates oracle).1 <;>
      by_cases hU : q.name ∈ (DependencyResolver.getAvailableUpdates oracle installed).1 <;>
        refine ⟨?_, ?_, ?_⟩ <;> simp [List.elem_iff, hS, hU]

/-- Witness for C1: on `fixtureOracle` the package `openssl` is in both the
update set and the security set and comes out classified `security`. -/
theorem c1_witness :
    fixtureResolvedPkg ∈ (DependencyResolver.resolve fixtureOracle ["openssl"] true).1 ∧
    fixtureResolvedPkg.package_type = "security" :=
  ⟨by decide,
   (c1_resolve_classifies_by_strict_priority fixtureOracle ["openssl"] fixtureResolvedPkg
     (by decide)).2.1 (by decide)⟩

/-- Claim C2: on every successful build the metadata document sealed into
the bundle has `checksums.bundle_hash = ""` (never the archive digest); the
archive's own SHA-256 is taken from the finished archive, appears only as
the final build-log entry after the archive-creation entry, and the sealed
artifacts (metadata, checksums file, build-log file) are independent of
it. -/
theorem c2_bundle_hash_empty_and_logged_only
    (env : BundleBuilder.BuildEnv) (out : BundleBuilder.BuildOutcome)
    (h : BundleBuilder.build env = .ok out) :
    out.sealedMetadata.checksums =
      { algorithm := "sha256", bundle_hash := "" : BundleBuilder.BundleChecksums } ∧
    out.archiveHash = env.archiveHash ∧
    out.finalLog = out.sealedLogLines ++
      ["Step 9: Creating archive",
       "  Bundle created: " ++ out.archivePath,
       "  SHA256: " ++ out.archiveHash] ∧
    (∀ h2, (BundleBuilder.build { env with archiveHash := h2 }).map
        (fun o => (o.sealedMetadata, o.sealedChecksums, o.sealedLogLines))
      = .ok (out.sealedMetadata, out.sealedChecksums, out.sealedLogLines)) := by
  simp only [BundleBuilder.build] at h
  split at h
  · exact absurd h (by simp)
  · next hcond =>
      rw [Except.ok.injEq] at h
      subst h
      refine ⟨rfl, rfl, by simp, ?_⟩
      intro h2
      simp only [BundleBuilder.build]
      rw [if_neg (by simpa using hcond)]
      rfl

/-- Witness for C2 on `fixtureBuildEnv`. -/
theorem c2_witness :
    fixtureBuildOutcome.sealedMetadata.checksums =
      { algorithm := "sha256", bundle_hash := "" : BundleBuilder.BundleChecksums } ∧
    fixtureBuildOutcome.archiveHash = fixtureBuildEnv.archiveHash ∧
    fixtureBuildOutcome.finalLog = fixtureBuildOutcome.sealedLogLines ++
      ["Step 9: Creating archive",
       "  Bundle created: " ++ fixtureBuildOutcome.archivePath,
       "  SHA256: " ++ fixtureBuildOutcome.archiveHash] ∧
    (∀ h2, (BundleBuilder.build { fixtureBuildEnv with archiveHash := h2 }).map
        (fun o => (o.sealedMetadata, o.sealedChecksums, o.sealedLogLines))
      = .ok (fixtureBuildOutcome.sealedMetadata, fixtureBuildOutcome.sealedChecksums,
             fixtureBuildOutcome.sealedLogLines)) :=
  c2_bundle_hash_empty_and_logged_only fixtureBuildEnv fixtureBuildOutcome rfl

/-- On lists whose successful entries carry a nonempty digest and a path,
the checksum-line filter keeps exactly the successful entries and emits
`checksumLineOf` for each. -/
theorem filterMap_checksumLine_eq_map (l : List RPMDownloader.DownloadResult)
    (hinv : ∀ r ∈ l, r.success = true →
      r.sha256.getD "" ≠ "" ∧ r.local_path.isSome = true) :
    l.filterMap RPMDownloader.checksumLine? =
      (l.filter (fun r => r.success)).map RPMDownloader.checksumLineOf := by
  induction l with
  | nil => rfl
  | cons r rest ih =>
      have hrest := fun x hx => hinv x (List.mem_cons_of_mem _ hx)
      by_cases hs : r.success = true
      · obtain ⟨hh, hp⟩ := hinv r (List.mem_cons_self r rest) hs
        obtain ⟨h0, hsome⟩ : ∃ h0, r.sha256 = some h0 := by
          cases hc : r.sha256 with
          | none => simp [hc] at hh
          | some v => exact ⟨v, rfl⟩
        obtain ⟨p0, hpsome⟩ : ∃ p0, r.local_path = some p0 := by
          cases hc : r.local_path with
          | none => simp [hc] at hp
          | some v => exact ⟨v, rfl⟩
        have hne : h0 ≠ "" := by
          rw [hsome] at hh
          simpa using hh
        have hline : RPMDownloader.checksumLine? r =
            some (RPMDownloader.checksumLineOf r) := by
          simp [RPMDownloader.checksumLine?, RPMDownloader.checksumLineOf,
                hsome, hpsome, hs, hne]
        simp [List.filterMap_cons, hline, List.filter_cons, hs, ih hrest]
      · have hline : RPMDownloader.checksumLine? r = none := by
          unfold RPMDownloader.checksumLine?
          cases r.sha256 <;> cases r.local_path <;> simp [hs]
        simp [List.filterMap_cons, hline, List.filter_cons, hs, ih hrest]

/-- Claim C7: the checksums file holds exactly one `<sha256>  <filename>`
line per successful download result, ordered ascending by originating
package name, joined with newlines and followed by a single trailing
newline and nothing else; with exactly one successful result the file is
that one line plus the newline. -/
theorem c7_checksums_one_sorted_line_per_success
    (results : List RPMDownloader.DownloadResult)
    (hinv : ∀ r ∈ results, r.success = true →
      r.sha256.getD "" ≠ "" ∧ r.local_path.isSome = true) :
    ∃ kept : List RPMDownloader.DownloadResult,
      kept.Perm (results.filter (fun r => r.success)) ∧
      List.Pairwise RPMDownloader.byNameLe kept ∧
      RPMDownloader.generateChecksumsContent results =
        String.intercalate "\n" (kept.map RPMDownloader.checksumLineOf) ++ "\n" ∧
      (∀ r0, results.filter (fun r => r.success) = [r0] →
        RPMDownloader.generateChecksumsContent results =
          RPMDownloader.checksumLineOf r0 ++ "\n") := by
  refine ⟨(results.insertionSort RPMDownloader.byNameLe).filter (fun r => r.success),
          ?_, ?_, ?_, ?_⟩
  · exact (List.perm_insertionSort _ _).filter _
  · exact List.Pairwise.sublist (List.filter_sublist _)
      (List.sorted_insertionSort _ _)
  · simp only [RPMDownloader.generateChecksumsContent]
    rw [filterMap_checksumLine_eq_map]
    intro r hr
    exact hinv r ((List.perm_insertionSort _ _).mem_iff.mp hr)
  · intro r0 h0
    have hkept : (results.insertionSort RPMDownloader.byNameLe).filter
        (fun r => r.success) = [r0] := by
      refine List.perm_singleton.mp ?_
      rw [← h0]
      exact (List.perm_insertionSort _ _).filter _
    simp only [RPMDownloader.generateChecksumsContent]
    rw [filterMap_checksumLine_eq_map, hkept]
    · simp [String.intercalate, String.intercalate.go]
    · intro r hr
      exact hinv r ((List.perm_insertionSort _ _).mem_iff.mp hr)

/-- Witness for C7: one failed and one successful result; the invariant
holds and the conclusion is obtained from the theorem. -/
theorem c7_witness :
    (∀ r ∈ [fixtureDownloadFail, fixtureDownloadOk], r.success = true →
      r.sha256.getD "" ≠ "" ∧ r.local_path.isSome = true) ∧
    (∃ kept : List RPMDownloader.DownloadResult,
      kept.Perm ([fixtureDownloadFail, fixtureDownloadOk].filter (fun r => r.success)) ∧
      List.Pairwise RPMDownloader.byNameLe kept ∧
      RPMDownloader.generateChecksumsContent [fixtureDownloadFail, fixtureDownloadOk] =
        String.intercalate "\n" (kept.map RPMDownloader.checksumLineOf) ++ "\n" ∧
      (∀ r0, [fixtureDownloadFail, fixtureDownloadOk].filter (fun r => r.success) = [r0] →
        RPMDownloader.generateChecksumsContent [fixtureDownloadFail, fixtureDownloadOk] =
          RPMDownloader.checksumLineOf r0 ++ "\n")) :=
  ⟨by decide,
   c7_checksums_one_sorted_line_per_success [fixtureDownloadFail, fixtureDownloadOk]
     (by decide)⟩

/-- Counterexample to C4 as stated: "every other manifest … silently
skipped … never by raising an error" is false twice over.  A malformed
manifest makes `add_manifest` raise the JSON decode error (propagated by
directory ingestion for a `*-manifest.json` file), and even an OS-matching
parseable manifest is not necessarily accepted: one whose `host_id` is a
JSON array raises `TypeError` at the `manifest_hashes[host_id]`
assignment. -/
theorem c4_counterexample :
    ManifestMerger.addManifest (fun _ => "")
      { os_major := 9, manifests := [], manifest_hashes := [] } malformedFile
      = .error .jsonDecodeError ∧
    ManifestMerger.addManifestsFromDirectory (fun _ => "")
      { os_major := 9, manifests := [], manifest_hashes := [] } [malformedFile]
      = .error .jsonDecodeError ∧
    ManifestMerger.addManifest (fun _ => "")
      { os_major := 9, manifests := [], manifest_hashes := [] } unhashableHostFile
      = .error .typeError := by
  exact ⟨rfl, rfl, rfl⟩

/-- Claim C4 (amended): for a parseable manifest whose top level and `os`
field are dict-shaped, a wrong-OS major means it is silently skipped with
`false`; a matching OS major means it is accepted with `true` when its
`host_id` (or the file-stem default) is a hashable JSON value, but raises
`TypeError` when `host_id` is a JSON array or object; and a manifest whose
text is not valid JSON makes `add_manifest` raise a decode error, which
directory ingestion propagates for `*-manifest.json` files and suppresses
(skipping the file, uncounted) only for other `*.json` files. -/
theorem c4_amended_acceptance_iff_os_match
    (contentHash : Json → String) (m : ManifestMerger.Merger)
    (f : ManifestMerger.ManifestFile) :
    (∀ man major?, f.content = some man →
       ManifestMerger.manifestOsMajor man = .ok major? →
       ((Json.eqIntOpt major? m.os_major = false →
          ManifestMerger.addManifest contentHash m f = .ok (m, false)) ∧
        (Json.eqIntOpt major? m.os_major = true →
         (ManifestMerger.hostIdOf man (pathStem f.name)).hashable = true →
          ∃ m', ManifestMerger.addManifest contentHash m f = .ok (m', true)) ∧
        (Json.eqIntOpt major? m.os_major = true →
         (ManifestMerger.hostIdOf man (pathStem f.name)).hashable = false →
          ManifestMerger.addManifest contentHash m f = .error .typeError))) ∧
    (f.content = none →
       ManifestMerger.addManifest contentHash m f = .error .jsonDecodeError) ∧
    (f.content = none → strEndsWith f.name "-manifest.json" = true →
       ManifestMerger.addManifestsFromDirectory contentHash m [f]
         = .error .jsonDecodeError) ∧
    (f.content = none → strEndsWith f.name "-manifest.json" = false →
       strEndsWith f.name ".json" = true → strContains "-manifest" f.name = false →
       ManifestMerger.addManifestsFromDirectory contentHash m [f] = .ok (m, 0)) := by
  refine ⟨?_, ?_, ?_, ?_⟩
  · intro man major? hc hm
    obtain ⟨fname, fcontent⟩ := f
    have hc2 : fcontent = some man := hc
    subst hc2
    refine ⟨?_, ?_, ?_⟩
    · intro hfalse
      unfold ManifestMerger.addManifest
      dsimp only
      rw [hm]
      dsimp only
      rw [hfalse]
      rfl
    · intro htrue hhash
      have hhash2 : (ManifestMerger.hostIdOf man (pathStem fname)).hashable
          = true := hhash
      unfold ManifestMerger.addManifest
      dsimp only
      rw [hm]
      dsimp only
      rw [htrue]
      rw [hhash2]
      exact ⟨_, rfl⟩
    · intro htrue hhash
      have hhash2 : (ManifestMerger.hostIdOf man (pathStem fname)).hashable
          = false := hhash
      unfold ManifestMerger.addManifest
      dsimp only
      rw [hm]
      dsimp only
      rw [htrue]
      rw [hhash2]
      rfl
  · intro hc
    obtain ⟨fname, fcontent⟩ := f
    have hc2 : fcontent = none := hc
    subst hc2
    rfl
  · intro hc hconv
    have h1 : ManifestMerger.addCounted contentHash (m, 0) f
        = .error .jsonDecodeError := by
      obtain ⟨fname, fcontent⟩ := f
      simp only [ManifestMerger.ManifestFile.content] at hc
      subst hc
      rfl
    simp [ManifestMerger.addManifestsFromDirectory, hconv, h1, bind, Except.bind]
  · intro hc hnconv hjson hnsub
    have h1 : ManifestMerger.addCountedCaught contentHash (m, 0) f = .ok (m, 0) := by
      obtain ⟨fname, fcontent⟩ := f
      simp only [ManifestMerger.ManifestFile.content] at hc
      subst hc
      rfl
    simp [ManifestMerger.addManifestsFromDirectory, hnconv, hjson, hnsub, h1,
          bind, Except.bind, pure, Except.pure]

/-- Witness for the amended C4: a matching manifest is accepted, the same
manifest is rejected as `false` by an OS-8 merger, a matching manifest with
an array `host_id` raises `TypeError`, and a malformed file raises the
decode error. -/
theorem c4_witness :
    (∃ m', ManifestMerger.addManifest (fun _ => "h")
      { os_major := 9, manifests := [], manifest_hashes := [] } fixtureFile
      = .ok (m', true)) ∧
    ManifestMerger.addManifest (fun _ => "h")
      { os_major := 8, manifests := [], manifest_hashes := [] } fixtureFile
      = .ok ({ os_major := 8, manifests := [], manifest_hashes := [] }, false) ∧
    ManifestMerger.addManifest (fun _ => "h")
      { os_major := 9, manifests := [], manifest_hashes := [] } unhashableHostFile
      = .error .typeError ∧
    ManifestMerger.addManifest (fun _ => "h")
      { os_major := 9, manifests := [], manifest_hashes := [] } malformedFile
      = .error .jsonDecodeError :=
  ⟨((c4_amended_acceptance_iff_os_match (fun _ => "h")
      { os_major := 9, manifests := [], manifest_hashes := [] } fixtureFile).1
      fixtureManifest (some (.num 9)) rfl rfl).2.1 (by decide) (by decide),
   ((c4_amended_acceptance_iff_os_match (fun _ => "h")
      { os_major := 8, manifests := [], manifest_hashes := [] } fixtureFile).1
      fixtureManifest (some (.num 9)) rfl rfl).1 (by decide),
   ((c4_amended_acceptance_iff_os_match (fun _ => "h")
      { os_major := 9, manifests := [], manifest_hashes := [] }
      unhashableHostFile).1
      (.obj [("host_id", .arr [.str "a"]),
             ("os", .obj [("major", .num 9), ("minor", .num 6),
                          ("name", .str "rhel")])])
      (some (.num 9)) rfl rfl).2.2 (by decide) (by decide),
   (c4_amended_acceptance_iff_os_match (fun _ => "h")
      { os_major := 9, manifests := [], manifest_hashes := [] }
      malformedFile).2.1 rfl⟩

/-- The returned validity flag is exactly "no errors were collected". -/
theorem validate_ok_eq (m : List (String × Json)) :
    (ManifestValidator.validate m).ok =
      ((ManifestValidator.validate m).errors.length == 0) := rfl

/-- A manifest with at least one collected error is reported invalid. -/
theorem validate_ok_false_of_mem (m : List (String × Json)) (e : String)
    (he : e ∈ (ManifestValidator.validate m).errors) :
    (ManifestValidator.validate m).ok = false := by
  rw [validate_ok_eq]
  have hne : (ManifestValidator.validate m).errors ≠ [] := List.ne_nil_of_mem he
  cases hc : (ManifestValidator.validate m).errors with
  | nil => exact absurd hc hne
  | cons a l => simp [hc]

/-- Errors collected by the OS pass appear in the overall error list. -/
theorem validate_mem_of_mem_os (m : List (String × Json)) (e : String)
    (he : e ∈ (ManifestValidator.validateOs m).1) :
    e ∈ (ManifestValidator.validate m).errors := by
  simp only [ManifestValidator.validate, List.map_cons, List.map_nil,
             List.flatten_cons, List.flatten_nil]
  simp only [List.mem_append]
  exact Or.inr (Or.inr (Or.inl he))

/-- Counterexample to C9 as stated: a manifest whose `os.major` is JSON
`null` — a value outside the supported set 8, 9 — validates as *valid*,
with no error at all: the major check is skipped for `None`. -/
theorem c9_counterexample :
    Json.dictGet nullMajorManifest "os" =
      some (.obj [("major", Json.null), ("minor", Json.num 6),
                  ("name", Json.str "rhel")]) ∧
    Json.memInts Json.null ManifestValidator.VALID_OS_MAJORS = false ∧
    (ManifestValidator.validate nullMajorManifest).ok = true ∧
    (ManifestValidator.validate nullMajorManifest).errors = [] := by
  refine ⟨rfl, by decide, by decide, by decide⟩

/-- Claim C9 (amended): with the manifest's `os` value dict-shaped (or
absent), a missing `os.major` yields the missing-field error and a present
non-null `os.major` outside 8, 9 yields the invalid-major error, either way
making the manifest invalid; a `null` major skips the check (the Python
guard `major is not None` exempts it). -/
theorem c9_amended_os_major_check (m : List (String × Json))
    (osFields : List (String × Json))
    (hos : (Json.dictGet m "os").getD (.obj []) = .obj osFields) :
    (Json.dictGet osFields "major" = none →
       "Missing required os field: major" ∈ (ManifestValidator.validate m).errors ∧
       (ManifestValidator.validate m).ok = false) ∧
    (∀ mj, Json.dictGet osFields "major" = some mj → mj ≠ .null →
       Json.memInts mj ManifestValidator.VALID_OS_MAJORS = false →
       ((∃ v, ("Invalid OS major version: " ++ v ++ " (expected 8 or 9)")
            ∈ (ManifestValidator.validate m).errors) ∧
        (ManifestValidator.validate m).ok = false)) := by
  constructor
  · intro hmaj
    have hdm : Json.dictMem osFields "major" = false := by
      simp [Json.dictMem, hmaj]
    have hmem : "Missing required os field: major" ∈
        (ManifestValidator.validateOs m).1 := by
      simp only [ManifestValidator.validateOs, hos]
      refine List.mem_append_left _ (List.mem_append_left _ ?_)
      rw [List.mem_filterMap]
      refine ⟨"major", by simp [ManifestValidator.REQUIRED_OS_FIELDS], ?_⟩
      simp [hdm]
      rfl
    have hmem2 := validate_mem_of_mem_os m _ hmem
    exact ⟨hmem2, validate_ok_false_of_mem m _ hmem2⟩
  · intro mj hmaj hnn hmem8
    have hbn : (mj == Json.null) = false := by
      cases hb : (mj == Json.null)
      · rfl
      · exfalso
        apply hnn
        cases mj <;> first
          | rfl
          | simp [(· == ·), Json.beq] at hb
    have hmem : ("Invalid OS major version: " ++ mj.pyStr ++ " (expected 8 or 9)") ∈
        (ManifestValidator.validateOs m).1 := by
      simp only [ManifestValidator.validateOs, hos]
      refine List.mem_append_left _ (List.mem_append_right _ ?_)
      rw [hmaj]
      simp [hbn, hmem8]
      rfl
    have hmem2 := validate_mem_of_mem_os m _ hmem
    exact ⟨⟨mj.pyStr, hmem2⟩, validate_ok_false_of_mem m _ hmem2⟩

/-- Witness for the amended C9: a manifest with `os.major = 7` draws the
invalid-major error and is invalid; one lacking `major` draws the
missing-field error. -/
theorem c9_witness :
    ((Json.dictGet [("os", Json.obj [("major", Json.num 7)])] "os").getD (.obj [])
      = .obj [("major", Json.num 7)]) ∧
    ((∃ v, ("Invalid OS major version: " ++ v ++ " (expected 8 or 9)")
        ∈ (ManifestValidator.validate [("os", Json.obj [("major", Json.num 7)])]).errors) ∧
     (ManifestValidator.validate [("os", Json.obj [("major", Json.num 7)])]).ok = false) ∧
    ("Missing required os field: major"
        ∈ (ManifestValidator.validate [("os", Json.obj [])]).errors ∧
     (ManifestValidator.validate [("os", Json.obj [])]).ok = false) :=
  ⟨rfl,
   (c9_amended_os_major_check [("os", Json.obj [("major", Json.num 7)])]
      [("major", Json.num 7)] rfl).2 (Json.num 7) rfl
      (fun h => Json.noConfusion h) (by decide),
   (c9_amended_os_major_check [("os", Json.obj [])] [] rfl).1 rfl⟩

/-- Unfolding lemma for dictionary lookup on a cons cell. -/
theorem Json.dictGet_cons (a : String) (v : Json) (rest : List (String × Json))
    (k : String) :
    Json.dictGet ((a, v) :: rest) k = if a == k then some v else Json.dictGet rest k := by
  by_cases h : (a == k) = true <;> simp [Json.dictGet, List.find?, h]

/-- Claim C8: `validate`'s result depends only on the first 100
`installed_rpms` entries — manifests agreeing on every other field and on
the first 100 entries (differing arbitrarily at index 100 and beyond)
validate identically. -/
theorem c8_validate_samples_only_first_100 (m1 m2 : List (String × Json))
    (xs ys : List Json)
    (hk : ∀ k, k ≠ "installed_rpms" → Json.dictGet m1 k = Json.dictGet m2 k)
    (hx : Json.dictGet m1 "installed_rpms" = some (.arr xs))
    (hy : Json.dictGet m2 "installed_rpms" = some (.arr ys))
    (htake : xs.take 100 = ys.take 100) :
    ManifestValidator.validate m1 = ManifestValidator.validate m2 := by
  have hmem : ∀ k, Json.dictMem m1 k = Json.dictMem m2 k := by
    intro k
    by_cases hkk : k = "installed_rpms"
    · subst hkk
      simp [Json.dictMem, hx, hy]
    · simp [Json.dictMem, hk k hkk]
  have h1 : ManifestValidator.validateRequiredFields m1 =
      ManifestValidator.validateRequiredFields m2 := by
    simp only [ManifestValidator.validateRequiredFields]
    congr 1
    apply List.filterMap_congr
    intro f _
    rw [hmem f]
  have h2 : ManifestValidator.validateSchemaVersion m1 =
      ManifestValidator.validateSchemaVersion m2 := by
    simp only [ManifestValidator.validateSchemaVersion, hk "schema_version" (by decide)]
  have h3 : ManifestValidator.validateOs m1 = ManifestValidator.validateOs m2 := by
    simp only [ManifestValidator.validateOs, hk "os" (by decide)]
  have h4 : ManifestValidator.validateArch m1 = ManifestValidator.validateArch m2 := by
    simp only [ManifestValidator.validateArch, hk "arch" (by decide)]
  have h5 : ManifestValidator.validateRepos m1 = ManifestValidator.validateRepos m2 := by
    simp only [ManifestValidator.validateRepos, Json.dictGetD,
               hk "enabled_repos" (by decide)]
  have h7 : ManifestValidator.validateTimestamp m1 =
      ManifestValidator.validateTimestamp m2 := by
    simp only [ManifestValidator.validateTimestamp, hk "timestamp" (by decide)]
  have h6 : ManifestValidator.validateRpms m1 = ManifestValidator.validateRpms m2 := by
    simp only [ManifestValidator.validateRpms, Json.dictGetD, hx, hy, Option.getD]
    by_cases hxe : xs.length = 0
    · have hxnil : xs = [] := List.eq_nil_of_length_eq_zero hxe
      have hynil : ys = [] := by
        subst hxnil
        rcases List.take_eq_nil_iff.mp htake.symm with h0 | h0
        · exact absurd h0 (by decide)
        · exact h0
      simp [hxnil, hynil]
    · have hye : ¬ ys.length = 0 := by
        intro hy0
        have hynil : ys = [] := List.eq_nil_of_length_eq_zero hy0
        subst hynil
        rcases List.take_eq_nil_iff.mp htake with h0 | h0
        · exact absurd h0 (by decide)
        · exact hxe (by simp [h0])
      simp only [hxe, hye, if_false, htake]
  simp only [ManifestValidator.validate, h1, h2, h3, h4, h5, h6, h7]

/-- Witness for C8: a 100-entry manifest and its extension by two junk
entries validate identically. -/
theorem c8_witness :
    (∀ k, k ≠ "installed_rpms" →
       Json.dictGet samplingManifest1 k = Json.dictGet samplingManifest2 k) ∧
    Json.dictGet samplingManifest1 "installed_rpms"
      = some (.arr (List.replicate 100 sampleRpmEntry)) ∧
    Json.dictGet samplingManifest2 "installed_rpms"
      = some (.arr (List.replicate 100 sampleRpmEntry ++ [.null, .num 3])) ∧
    ManifestValidator.validate samplingManifest1 =
      ManifestValidator.validate samplingManifest2 := by
  have hk : ∀ k, k ≠ "installed_rpms" →
      Json.dictGet samplingManifest1 k = Json.dictGet samplingManifest2 k := by
    intro k hkk
    have hb : ("installed_rpms" == k) = false := by
      simpa using Ne.symm hkk
    simp only [samplingManifest1, samplingManifest2, Json.dictGet_cons, hb,
               Bool.false_eq_true, if_false]
  have hx : Json.dictGet samplingManifest1 "installed_rpms"
      = some (.arr (List.replicate 100 sampleRpmEntry)) := rfl
  have hy : Json.dictGet samplingManifest2 "installed_rpms"
      = some (.arr (List.replicate 100 sampleRpmEntry ++ [.null, .num 3])) := rfl
  have htake : (List.replicate 100 sampleRpmEntry).take 100
      = (List.replicate 100 sampleRpmEntry ++ [Json.null, Json.num 3]).take 100 := by
    rw [List.take_append_of_le_length (by simp)]
  exact ⟨hk, hx, hy,
    c8_validate_samples_only_first_100 samplingManifest1 samplingManifest2 _ _
      hk hx hy htake⟩

/-- `contains` on JSON lists distributes over append. -/
theorem json_contains_append (l1 l2 : List Json) (a : Json) :
    (l1 ++ l2).contains a = (l1.contains a || l2.contains a) := by
  induction l1 with
  | nil => simp
  | cons b bs ih =>
      by_cases h : (a == b) = true <;>
        simp [List.contains_cons, h, ih, Bool.or_assoc]

/-- A value just added to a set model is contained in it. -/
theorem contains_setAdd_self (s : List Json) (v : Json) :
    (ManifestMerger.setAdd s v).contains v = true := by
  by_cases h : s.contains v = true
  · simp [ManifestMerger.setAdd, h]
  · simp only [ManifestMerger.setAdd, h, if_neg, Bool.false_eq_true, if_false]
    rw [json_contains_append]
    simp [List.contains_cons, Json.beq_self]

/-- Set insertion preserves prior membership. -/
theorem contains_setAdd_mono (s : List Json) (v w : Json)
    (h : s.contains w = true) :
    (ManifestMerger.setAdd s v).contains w = true := by
  by_cases hc : s.contains v = true
  · simpa [ManifestMerger.setAdd, hc] using h
  · simp only [ManifestMerger.setAdd, hc, Bool.false_eq_true, if_false]
    rw [json_contains_append, h]
    rfl

/-- After `rpmsInsert acc n v` the pair `(n, v)` is recorded. -/
theorem rpmsContains_insert_self (acc : List (Json × List Json)) (n v : Json) :
    ManifestMerger.rpmsContains (ManifestMerger.rpmsInsert acc n v) n v = true := by
  induction acc with
  | nil =>
      simp [ManifestMerger.rpmsInsert, ManifestMerger.rpmsContains, Json.beq_self,
            List.contains_cons]
  | cons kv rest ih =>
      obtain ⟨k, s⟩ := kv
      by_cases h : (k == n) = true
      · simp [ManifestMerger.rpmsInsert, ManifestMerger.rpmsContains, h,
              contains_setAdd_self]
      · simp [ManifestMerger.rpmsInsert, ManifestMerger.rpmsContains, h, ih]

/-- `rpmsInsert` preserves prior membership. -/
theorem rpmsContains_insert_mono (acc : List (Json × List Json)) (n v n' v' : Json)
    (h : ManifestMerger.rpmsContains acc n' v' = true) :
    ManifestMerger.rpmsContains (ManifestMerger.rpmsInsert acc n v) n' v' = true := by
  induction acc with
  | nil => simp [ManifestMerger.rpmsContains] at h
  | cons kv rest ih =>
      obtain ⟨k, s⟩ := kv
      by_cases hk : (k == n) = true
      · by_cases hk' : (k == n') = true
        · simp only [ManifestMerger.rpmsContains, hk', if_true, if_pos] at h
          simp [ManifestMerger.rpmsInsert, ManifestMerger.rpmsContains, hk, hk',
                contains_setAdd_mono _ _ _ h]
        · simp only [ManifestMerger.rpmsContains, hk', Bool.false_eq_true, if_false] at h
          simp [ManifestMerger.rpmsInsert, ManifestMerger.rpmsContains, hk, hk', h]
      · by_cases hk' : (k == n') = true
        · simp only [ManifestMerger.rpmsContains, hk', if_true, if_pos] at h
          simp [ManifestMerger.rpmsInsert, ManifestMerger.rpmsContains, hk, hk', h]
        · simp only [ManifestMerger.rpmsContains, hk', Bool.false_eq_true, if_false] at h
          simp [ManifestMerger.rpmsInsert, ManifestMerger.rpmsContains, hk, hk', ih h]

/-- Inserting an already-recorded pair is a no-op. -/
theorem rpmsInsert_noop (acc : List (Json × List Json)) (n v : Json)
    (h : ManifestMerger.rpmsContains acc n v = true) :
    ManifestMerger.rpmsInsert acc n v = acc := by
  induction acc with
  | nil => simp [ManifestMerger.rpmsContains] at h
  | cons kv rest ih =>
      obtain ⟨k, s⟩ := kv
      by_cases hk : (k == n) = true
      · simp only [ManifestMerger.rpmsContains, hk, if_true, if_pos] at h
        simp [ManifestMerger.rpmsInsert, hk, ManifestMerger.setAdd, h]
      · simp only [ManifestMerger.rpmsContains, hk, Bool.false_eq_true, if_false] at h
        simp [ManifestMerger.rpmsInsert, hk, ih h]

/-- One merge step preserves prior membership. -/
theorem rpmsContains_step_mono (acc : List (Json × List Json)) (rpm n v : Json)
    (h : ManifestMerger.rpmsContains acc n v = true) :
    ManifestMerger.rpmsContains (ManifestMerger.mergeRpmStep acc rpm) n v = true := by
  unfold ManifestMerger.mergeRpmStep
  by_cases hc : ((rpm.getD "name" (.str "")).truthy &&
      (rpm.getD "nevra" (.str "")).truthy) = true
  · simpa [hc] using rpmsContains_insert_mono _ _ _ _ _ h
  · simpa [hc] using h

/-- A whole merge pass preserves prior membership. -/
theorem rpmsContains_fold_mono (rpms : List Json) (acc : List (Json × List Json))
    (n v : Json) (h : ManifestMerger.rpmsContains acc n v = true) :
    ManifestMerger.rpmsContains (rpms.foldl ManifestMerger.mergeRpmStep acc) n v
      = true := by
  induction rpms generalizing acc with
  | nil => exact h
  | cons r rest ih => exact ih _ (rpmsContains_step_mono _ _ _ _ h)

/-- After a merge pass, every truthy entry of the pass is recorded. -/
theorem rpmsContains_fold_complete (rpms : List Json)
    (acc : List (Json × List Json)) (rpm : Json) (hmem : rpm ∈ rpms)
    (hc : ((rpm.getD "name" (.str "")).truthy &&
           (rpm.getD "nevra" (.str "")).truthy) = true) :
    ManifestMerger.rpmsContains (rpms.foldl ManifestMerger.mergeRpmStep acc)
      (rpm.getD "name" (.str "")) (rpm.getD "nevra" (.str "")) = true := by
  induction rpms generalizing acc with
  | nil => cases hmem
  | cons r rest ih =>
      rw [List.foldl_cons]
      rcases List.mem_cons.mp hmem with hr | hr
      · subst hr
        apply rpmsContains_fold_mono
        simp only [ManifestMerger.mergeRpmStep, hc, if_pos]
        exact rpmsContains_insert_self _ _ _
      · exact ih _ hr

/-- A merge pass whose every truthy entry is already recorded is a no-op. -/
theorem merge_fold_noop (rpms : List Json) (acc : List (Json × List Json))
    (h : ∀ rpm ∈ rpms, ((rpm.getD "name" (.str "")).truthy &&
          (rpm.getD "nevra" (.str "")).truthy) = true →
        ManifestMerger.rpmsContains acc (rpm.getD "name" (.str ""))
          (rpm.getD "nevra" (.str "")) = true) :
    rpms.foldl ManifestMerger.mergeRpmStep acc = acc := by
  induction rpms with
  | nil => rfl
  | cons r rest ih =>
      have hstep : ManifestMerger.mergeRpmStep acc r = acc := by
        by_cases hc : ((r.getD "name" (.str "")).truthy &&
            (r.getD "nevra" (.str "")).truthy) = true
        · simp only [ManifestMerger.mergeRpmStep, hc, if_true, if_pos]
          exact rpmsInsert_noop _ _ _ (h r (List.mem_cons_self r rest) hc)
        · simp [ManifestMerger.mergeRpmStep, hc]
      rw [List.foldl_cons, hstep]
      exact ih (fun rpm hr => h rpm (List.mem_cons_of_mem _ hr))

/-- Merging the same manifest a second time changes nothing. -/
theorem mergeManifestRpms_idem (acc : List (Json × List Json)) (man : Json) :
    ManifestMerger.mergeManifestRpms (ManifestMerger.mergeManifestRpms acc man) man
      = ManifestMerger.mergeManifestRpms acc man := by
  unfold ManifestMerger.mergeManifestRpms
  apply merge_fold_noop
  intro rpm hr hc
  exact rpmsContains_fold_complete _ _ _ hr hc

/-- Inversion of a successful, accepting `add_manifest` call. -/
theorem addManifest_ok_true_inv (contentHash : Json → String)
    (m : ManifestMerger.Merger) (f : ManifestMerger.ManifestFile)
    (m' : ManifestMerger.Merger)
    (h : ManifestMerger.addManifest contentHash m f = .ok (m', true)) :
    ∃ man major?, f.content = some man ∧
      ManifestMerger.manifestOsMajor man = .ok major? ∧
      Json.eqIntOpt major? m.os_major = true ∧
      (ManifestMerger.hostIdOf man (pathStem f.name)).hashable = true ∧
      m' = { m with
        manifest_hashes := ManifestMerger.dictSet m.manifest_hashes
          (ManifestMerger.hostIdOf man (pathStem f.name))
          ("sha256:" ++ contentHash man),
        manifests := m.manifests ++ [man] } := by
  obtain ⟨fname, fcontent⟩ := f
  cases fcontent with
  | none => exact absurd h (by simp [ManifestMerger.addManifest])
  | some man =>
      refine ⟨man, ?_⟩
      unfold ManifestMerger.addManifest at h
      dsimp only at h
      cases hm : ManifestMerger.manifestOsMajor man with
      | error e =>
          rw [hm] at h
          exact absurd h (by simp)
      | ok major? =>
          rw [hm] at h
          dsimp only at h
          refine ⟨major?, rfl, rfl, ?_⟩
          by_cases hmatch : Json.eqIntOpt major? m.os_major = true
          · rw [hmatch] at h
            rw [if_neg (by decide)] at h
            by_cases hhash : (ManifestMerger.hostIdOf man (pathStem fname)).hashable
                = true
            · rw [hhash, if_neg (by decide)] at h
              rw [Except.ok.injEq, Prod.mk.injEq] at h
              exact ⟨hmatch, hhash, h.1.symm⟩
            · rw [Bool.not_eq_true] at hhash
              rw [hhash, if_pos (by decide)] at h
              cases h
          · rw [Bool.not_eq_true] at hmatch
            rw [hmatch] at h
            rw [if_pos (by decide)] at h
            rw [Except.ok.injEq, Prod.mk.injEq] at h
            exact absurd h.2 (by decide)

/-- Claim C5: adding the same accepted manifest twice to a fresh merger
yields two host-summary rows but exactly the same merged package-name
dictionary as adding it once. -/
theorem c5_add_twice_two_hosts_same_merge (contentHash : Json → String) (t : Int)
    (f : ManifestMerger.ManifestFile) (m1 : ManifestMerger.Merger)
    (h1 : ManifestMerger.addManifest contentHash
      { os_major := t, manifests := [], manifest_hashes := [] } f = .ok (m1, true)) :
    ∃ m2, ManifestMerger.addManifest contentHash m1 f = .ok (m2, true) ∧
      (ManifestMerger.getHostSummary m2).length = 2 ∧
      ManifestMerger.getMergedInstalledRpms m2
        = ManifestMerger.getMergedInstalledRpms m1 := by
  obtain ⟨man, major?, hc, hm, hmatch, hhash, hm1⟩ :=
    addManifest_ok_true_inv contentHash _ f m1 h1
  obtain ⟨fname, fcontent⟩ := f
  have hc2 : fcontent = some man := hc
  subst hc2
  have hhash2 : (ManifestMerger.hostIdOf man (pathStem fname)).hashable
      = true := hhash
  have hsecond : ∃ m2, ManifestMerger.addManifest contentHash m1
      { name := fname, content := some man } = .ok (m2, true) := by
    subst hm1
    unfold ManifestMerger.addManifest
    dsimp only
    rw [hm]
    dsimp only
    rw [show Json.eqIntOpt major?
        ({ os_major := t, manifests := [], manifest_hashes := [] :
           ManifestMerger.Merger }).os_major = true from hmatch]
    rw [hhash2]
    exact ⟨_, rfl⟩
  obtain ⟨m2, h2⟩ := hsecond
  obtain ⟨man2, major2, hc2b, _, _, _, hm2eq⟩ :=
    addManifest_ok_true_inv contentHash m1 _ m2 h2
  have hman2 : man2 = man := by
    have := hc2b
    simp only [ManifestMerger.ManifestFile.content, Option.some.injEq] at this
    exact this.symm
  subst hman2
  subst hm2eq
  refine ⟨_, h2, ?_, ?_⟩
  · subst hm1
    simp [ManifestMerger.getHostSummary]
  · subst hm1
    simp only [ManifestMerger.getMergedInstalledRpms, List.nil_append,
               List.cons_append, List.foldl_cons, List.foldl_nil]
    exact mergeManifestRpms_idem _ _

/-- Witness for C5 on `fixtureFile`. -/
theorem c5_witness :
    ManifestMerger.addManifest (fun _ => "h")
      { os_major := 9, manifests := [], manifest_hashes := [] } fixtureFile
      = .ok (c5m1, true) ∧
    ∃ m2, ManifestMerger.addManifest (fun _ => "h") c5m1 fixtureFile
        = .ok (m2, true) ∧
      (ManifestMerger.getHostSummary m2).length = 2 ∧
      ManifestMerger.getMergedInstalledRpms m2
        = ManifestMerger.getMergedInstalledRpms c5m1 :=
  ⟨rfl, c5_add_twice_two_hosts_same_merge (fun _ => "h") 9 fixtureFile c5m1 rfl⟩

/-- `add_manifest` never changes the merger's target OS major. -/
theorem addManifest_os_eq (contentHash : Json → String) (m : ManifestMerger.Merger)
    (f : ManifestMerger.ManifestFile) (m' : ManifestMerger.Merger) (b : Bool)
    (h : ManifestMerger.addManifest contentHash m f = .ok (m', b)) :
    m'.os_major = m.os_major := by
  obtain ⟨fname, fcontent⟩ := f
  cases fcontent with
  | none => exact absurd h (by simp [ManifestMerger.addManifest])
  | some man =>
      unfold ManifestMerger.addManifest at h
      dsimp only at h
      cases hm : ManifestMerger.manifestOsMajor man with
      | error e =>
          rw [hm] at h
          exact absurd h (by simp)
      | ok mj =>
          rw [hm] at h
          dsimp only at h
          by_cases hb : Json.eqIntOpt mj m.os_major = true
          · rw [hb, if_neg (by decide)] at h
            by_cases hhash : (ManifestMerger.hostIdOf man (pathStem fname)).hashable
                = true
            · rw [hhash, if_neg (by decide)] at h
              rw [Except.ok.injEq, Prod.mk.injEq] at h
              rw [← h.1]
            · rw [Bool.not_eq_true] at hhash
              rw [hhash, if_pos (by decide)] at h
              cases h
          · rw [Bool.not_eq_true] at hb
            rw [hb, if_pos (by decide)] at h
            rw [Except.ok.injEq, Prod.mk.injEq] at h
            rw [← h.1]

/-- A manifest whose readable `os.major` mismatches the (invariant) target
is rejected as a pure no-op, from any merger state with that target. -/
theorem addManifest_skip_of_wrong_os (contentHash : Json → String)
    (f : ManifestMerger.ManifestFile) (man : Json) (major? : Option Json)
    (K : Int) (hc : f.content = some man)
    (hshape : ManifestMerger.manifestOsMajor man = .ok major?)
    (hmmK : Json.eqIntOpt major? K = false) :
    ∀ s : ManifestMerger.Merger, s.os_major = K →
      ManifestMerger.addManifest contentHash s f = .ok (s, false) := by
  intro s hs
  obtain ⟨fname, fcontent⟩ := f
  have hc2 : fcontent = some man := hc
  subst hc2
  unfold ManifestMerger.addManifest
  dsimp only
  rw [hshape]
  dsimp only
  rw [show Json.eqIntOpt major? s.os_major = false by rw [hs]; exact hmmK]
  rfl

/-- The first-pass fold step preserves the target OS major. -/
theorem addCounted_os_eq (contentHash : Json → String)
    (acc : ManifestMerger.Merger × Nat) (f : ManifestMerger.ManifestFile)
    (acc' : ManifestMerger.Merger × Nat)
    (h : ManifestMerger.addCounted contentHash acc f = .ok acc') :
    acc'.1.os_major = acc.1.os_major := by
  unfold ManifestMerger.addCounted at h
  cases ha : ManifestMerger.addManifest contentHash acc.1 f with
  | error e =>
      rw [ha] at h
      cases h
  | ok p =>
      obtain ⟨m2, b⟩ := p
      rw [ha] at h
      dsimp only at h
      rw [Except.ok.injEq] at h
      rw [← h]
      exact addManifest_os_eq contentHash acc.1 f m2 b ha

/-- The second-pass fold step preserves the target OS major. -/
theorem addCountedCaught_os_eq (contentHash : Json → String)
    (acc : ManifestMerger.Merger × Nat) (f : ManifestMerger.ManifestFile)
    (acc' : ManifestMerger.Merger × Nat)
    (h : ManifestMerger.addCountedCaught contentHash acc f = .ok acc') :
    acc'.1.os_major = acc.1.os_major := by
  unfold ManifestMerger.addCountedCaught at h
  cases ha : ManifestMerger.addManifest contentHash acc.1 f with
  | error e =>
      cases e with
      | jsonDecodeError =>
          rw [ha] at h
          dsimp only at h
          rw [Except.ok.injEq] at h
          rw [← h]
      | attributeError =>
          rw [ha] at h
          cases h
      | typeError =>
          rw [ha] at h
          cases h
  | ok p =>
      obtain ⟨m2, b⟩ := p
      rw [ha] at h
      dsimp only at h
      rw [Except.ok.injEq] at h
      rw [← h]
      exact addManifest_os_eq contentHash acc.1 f m2 b ha

/-- An invariant preserved by each fold step is preserved by `foldlM`. -/
theorem except_foldlM_pres {ε σ α : Type} (g : σ → α → Except ε σ) (P : σ → Prop)
    (hpres : ∀ s a s', g s a = .ok s' → P s → P s') :
    ∀ (l : List α) (s s' : σ), l.foldlM g s = .ok s' → P s → P s' := by
  intro l
  induction l with
  | nil =>
      intro s s' h hP
      rw [List.foldlM_nil] at h
      cases h
      exact hP
  | cons a rest ih =>
      intro s s' h hP
      rw [List.foldlM_cons] at h
      cases hg : g s a with
      | error e =>
          rw [hg] at h
          simp [bind, Except.bind] at h
      | ok s2 =>
          rw [hg] at h
          simp only [bind, Except.bind] at h
          exact ih s2 s' h (hpres s a s2 hg hP)

/-- Dropping a fold element that is a no-op (under a preserved invariant)
does not change `foldlM`. -/
theorem except_foldlM_skip_middle {ε σ α : Type} (g : σ → α → Except ε σ)
    (P : σ → Prop) (x : α)
    (hpres : ∀ s a s', g s a = .ok s' → P s → P s')
    (hskip : ∀ s, P s → g s x = .ok s) :
    ∀ (l1 l2 : List α) (s : σ), P s →
      (l1 ++ x :: l2).foldlM g s = (l1 ++ l2).foldlM g s := by
  intro l1
  induction l1 with
  | nil =>
      intro l2 s hP
      rw [List.nil_append, List.nil_append, List.foldlM_cons, hskip s hP]
      simp only [bind, Except.bind]
  | cons a l1 ih =>
      intro l2 s hP
      simp only [List.cons_append, List.foldlM_cons]
      cases hg : g s a with
      | error e => rfl
      | ok s2 =>
          simp only [bind, Except.bind]
          exact ih l2 s2 (hpres s a s2 hg hP)

/-- Replacing a fold element by one acting identically (under a preserved
invariant) does not change `foldlM`. -/
theorem except_foldlM_congr_middle {ε σ α : Type} (g : σ → α → Except ε σ)
    (P : σ → Prop) (x y : α)
    (hpres : ∀ s a s', g s a = .ok s' → P s → P s')
    (hxy : ∀ s, P s → g s x = g s y) :
    ∀ (l1 l2 : List α) (s : σ), P s →
      (l1 ++ x :: l2).foldlM g s = (l1 ++ y :: l2).foldlM g s := by
  intro l1
  induction l1 with
  | nil =>
      intro l2 s hP
      rw [List.nil_append, List.nil_append, List.foldlM_cons, List.foldlM_cons,
          hxy s hP]
  | cons a l1 ih =>
      intro l2 s hP
      simp only [List.cons_append, List.foldlM_cons]
      cases hg : g s a with
      | error e => rfl
      | ok s2 =>
          simp only [bind, Except.bind]
          exact ih l2 s2 (hpres s a s2 hg hP)

/-- Directory ingestion with a wrong-OS file inserted anywhere equals
directory ingestion without it, including the returned count. -/
theorem addDir_skip_of_wrong_os (contentHash : Json → String)
    (f : ManifestMerger.ManifestFile) (man : Json) (major? : Option Json)
    (K : Int) (hc : f.content = some man)
    (hshape : ManifestMerger.manifestOsMajor man = .ok major?)
    (hmmK : Json.eqIntOpt major? K = false)
    (files1 files2 : List ManifestMerger.ManifestFile) :
    ∀ s : ManifestMerger.Merger, s.os_major = K →
      ManifestMerger.addManifestsFromDirectory contentHash s (files1 ++ f :: files2)
        = ManifestMerger.addManifestsFromDirectory contentHash s
            (files1 ++ files2) := by
  intro s hs
  have hskip1 : ∀ acc : ManifestMerger.Merger × Nat, acc.1.os_major = K →
      ManifestMerger.addCounted contentHash acc f = .ok acc := by
    intro acc hacc
    unfold ManifestMerger.addCounted
    rw [addManifest_skip_of_wrong_os contentHash f man major? K hc hshape hmmK
        acc.1 hacc]
    rfl
  have hskip2 : ∀ acc : ManifestMerger.Merger × Nat, acc.1.os_major = K →
      ManifestMerger.addCountedCaught contentHash acc f = .ok acc := by
    intro acc hacc
    unfold ManifestMerger.addCountedCaught
    rw [addManifest_skip_of_wrong_os contentHash f man major? K hc hshape hmmK
        acc.1 hacc]
    rfl
  have hpres1 : ∀ (acc : ManifestMerger.Merger × Nat) a acc',
      ManifestMerger.addCounted contentHash acc a = .ok acc' →
      acc.1.os_major = K → acc'.1.os_major = K := by
    intro acc a acc' h hP
    rw [addCounted_os_eq contentHash acc a acc' h]
    exact hP
  have hpres2 : ∀ (acc : ManifestMerger.Merger × Nat) a acc',
      ManifestMerger.addCountedCaught contentHash acc a = .ok acc' →
      acc.1.os_major = K → acc'.1.os_major = K := by
    intro acc a acc' h hP
    rw [addCountedCaught_os_eq contentHash acc a acc' h]
    exact hP
  have hF1 : ((files1 ++ f :: files2).filter
        (fun g => strEndsWith g.name "-manifest.json")).foldlM
        (ManifestMerger.addCounted contentHash) (s, 0)
      = ((files1 ++ files2).filter
        (fun g => strEndsWith g.name "-manifest.json")).foldlM
        (ManifestMerger.addCounted contentHash) (s, 0) := by
    by_cases hp1 : strEndsWith f.name "-manifest.json" = true
    · rw [List.filter_append, List.filter_append, List.filter_cons, hp1]
      exact except_foldlM_skip_middle _ (fun acc => acc.1.os_major = K) f
        hpres1 hskip1 _ _ _ hs
    · have hp1f : strEndsWith f.name "-manifest.json" = false := by
        rwa [Bool.not_eq_true] at hp1
      rw [List.filter_append, List.filter_append, List.filter_cons, hp1f]
      simp
  have hF2 : ∀ acc1 : ManifestMerger.Merger × Nat, acc1.1.os_major = K →
      ((files1 ++ f :: files2).filter (fun g =>
          strEndsWith g.name ".json" && !(strContains "-manifest" g.name))).foldlM
        (ManifestMerger.addCountedCaught contentHash) acc1
      = ((files1 ++ files2).filter (fun g =>
          strEndsWith g.name ".json" && !(strContains "-manifest" g.name))).foldlM
        (ManifestMerger.addCountedCaught contentHash) acc1 := by
    intro acc1 hacc
    by_cases hp2 : (strEndsWith f.name ".json" && !(strContains "-manifest" f.name))
        = true
    · rw [List.filter_append, List.filter_append, List.filter_cons, hp2]
      exact except_foldlM_skip_middle _ (fun acc => acc.1.os_major = K) f
        hpres2 hskip2 _ _ _ hacc
    · have hp2f : (strEndsWith f.name ".json" && !(strContains "-manifest" f.name))
          = false := by
        rwa [Bool.not_eq_true] at hp2
      rw [List.filter_append, List.filter_append, List.filter_cons, hp2f]
      simp
  unfold ManifestMerger.addManifestsFromDirectory
  rw [hF1]
  cases hf : ((files1 ++ files2).filter
      (fun g => strEndsWith g.name "-manifest.json")).foldlM
      (ManifestMerger.addCounted contentHash) (s, 0) with
  | error e => rfl
  | ok acc1 =>
      simp only [bind, Except.bind]
      have hacc1 : acc1.1.os_major = K :=
        except_foldlM_pres _ (fun acc => acc.1.os_major = K) hpres1 _ _ _ hf hs
      rw [hF2 acc1 hacc1]

/-- Directory ingestion never changes the merger's target OS major. -/
theorem addDir_os_eq (contentHash : Json → String) (s : ManifestMerger.Merger)
    (files : List ManifestMerger.ManifestFile)
    (acc' : ManifestMerger.Merger × Nat)
    (h : ManifestMerger.addManifestsFromDirectory contentHash s files = .ok acc') :
    acc'.1.os_major = s.os_major := by
  have hpres1 : ∀ (acc : ManifestMerger.Merger × Nat) a acc',
      ManifestMerger.addCounted contentHash acc a = .ok acc' →
      acc.1.os_major = s.os_major → acc'.1.os_major = s.os_major := by
    intro acc a acc' h2 hP
    rw [addCounted_os_eq contentHash acc a acc' h2]
    exact hP
  have hpres2 : ∀ (acc : ManifestMerger.Merger × Nat) a acc',
      ManifestMerger.addCountedCaught contentHash acc a = .ok acc' →
      acc.1.os_major = s.os_major → acc'.1.os_major = s.os_major := by
    intro acc a acc' h2 hP
    rw [addCountedCaught_os_eq contentHash acc a acc' h2]
    exact hP
  unfold ManifestMerger.addManifestsFromDirectory at h
  cases h1 : ((files.filter (fun g => strEndsWith g.name "-manifest.json")).foldlM
      (ManifestMerger.addCounted contentHash) (s, 0)) with
  | error e =>
      rw [h1] at h
      simp [bind, Except.bind] at h
  | ok acc1 =>
      rw [h1] at h
      simp only [bind, Except.bind] at h
      cases h2 : ((files.filter (fun g =>
          strEndsWith g.name ".json" && !(strContains "-manifest" g.name))).foldlM
          (ManifestMerger.addCountedCaught contentHash) acc1) with
      | error e =>
          rw [h2] at h
          simp [bind, Except.bind] at h
      | ok acc2 =>
          rw [h2] at h
          simp only [pure, Except.pure, Except.ok.injEq] at h
          have e1 : acc1.1.os_major = s.os_major :=
            except_foldlM_pres _ (fun acc => acc.1.os_major = s.os_major)
              hpres1 _ _ _ h1 rfl
          have e2 : acc2.1.os_major = s.os_major :=
            except_foldlM_pres _ (fun acc => acc.1.os_major = s.os_major)
              hpres2 _ _ _ h2 e1
          rw [← h]
          exact e2

/-- One merger call never changes the target OS major. -/
theorem runOp_os_eq (contentHash : Json → String) (s : ManifestMerger.Merger)
    (op : ManifestMerger.MergeOp) (s' : ManifestMerger.Merger)
    (h : ManifestMerger.runOp contentHash s op = .ok s') :
    s'.os_major = s.os_major := by
  cases op with
  | file f =>
      unfold ManifestMerger.runOp at h
      dsimp only at h
      cases ha : ManifestMerger.addManifest contentHash s f with
      | error e =>
          rw [ha] at h
          simp [Except.map] at h
      | ok p =>
          obtain ⟨m2, b⟩ := p
          rw [ha] at h
          simp only [Except.map, Except.ok.injEq] at h
          rw [← h]
          exact addManifest_os_eq contentHash s f m2 b ha
  | dir files =>
      unfold ManifestMerger.runOp at h
      dsimp only at h
      cases ha : ManifestMerger.addManifestsFromDirectory contentHash s files with
      | error e =>
          rw [ha] at h
          simp [Except.map] at h
      | ok p =>
          rw [ha] at h
          simp only [Except.map, Except.ok.injEq] at h
          rw [← h]
          exact addDir_os_eq contentHash s files p ha

/-- Claim C3: a manifest whose `os.major` differs from the merger's target
contributes nothing: inserted anywhere in any sequence of `add_manifest` /
`add_manifests_from_directory` calls (as its own call or inside a
directory listing), the run equals the run without it, so it leaves no
trace in `get_host_summary()` or `get_merged_installed_rpms()`. -/
theorem c3_wrong_os_manifest_leaves_no_trace (contentHash : Json → String)
    (m : ManifestMerger.Merger) (f : ManifestMerger.ManifestFile) (man : Json)
    (major? : Option Json)
    (hc : f.content = some man)
    (hshape : ManifestMerger.manifestOsMajor man = .ok major?)
    (hmm : Json.eqIntOpt major? m.os_major = false) :
    (∀ ops1 ops2, ManifestMerger.runOps contentHash m
        (ops1 ++ .file f :: ops2)
      = ManifestMerger.runOps contentHash m (ops1 ++ ops2)) ∧
    (∀ ops1 ops2 files1 files2, ManifestMerger.runOps contentHash m
        (ops1 ++ .dir (files1 ++ f :: files2) :: ops2)
      = ManifestMerger.runOps contentHash m
        (ops1 ++ .dir (files1 ++ files2) :: ops2)) ∧
    (∀ ops1 ops2, (ManifestMerger.runOps contentHash m
        (ops1 ++ .file f :: ops2)).map ManifestMerger.getHostSummary
      = (ManifestMerger.runOps contentHash m (ops1 ++ ops2)).map
          ManifestMerger.getHostSummary) ∧
    (∀ ops1 ops2, (ManifestMerger.runOps contentHash m
        (ops1 ++ .file f :: ops2)).map ManifestMerger.getMergedInstalledRpms
      = (ManifestMerger.runOps contentHash m (ops1 ++ ops2)).map
          ManifestMerger.getMergedInstalledRpms) := by
  have hpres : ∀ (s : ManifestMerger.Merger) op s',
      ManifestMerger.runOp contentHash s op = .ok s' →
      s.os_major = m.os_major → s'.os_major = m.os_major := by
    intro s op s' h hP
    rw [runOp_os_eq contentHash s op s' h]
    exact hP
  have hskip : ∀ s : ManifestMerger.Merger, s.os_major = m.os_major →
      ManifestMerger.runOp contentHash s (.file f) = .ok s := by
    intro s hs
    unfold ManifestMerger.runOp
    dsimp only
    rw [addManifest_skip_of_wrong_os contentHash f man major? m.os_major
        hc hshape hmm s hs]
    rfl
  have hfile : ∀ ops1 ops2, ManifestMerger.runOps contentHash m
      (ops1 ++ .file f :: ops2) = ManifestMerger.runOps contentHash m
      (ops1 ++ ops2) := by
    intro ops1 ops2
    unfold ManifestMerger.runOps
    exact except_foldlM_skip_middle _ (fun s => s.os_major = m.os_major)
      (.file f) hpres hskip ops1 ops2 m rfl
  refine ⟨hfile, ?_, ?_, ?_⟩
  · intro ops1 ops2 files1 files2
    unfold ManifestMerger.runOps
    refine except_foldlM_congr_middle _ (fun s => s.os_major = m.os_major)
      _ _ hpres ?_ ops1 ops2 m rfl
    intro s hs
    unfold ManifestMerger.runOp
    dsimp only
    rw [addDir_skip_of_wrong_os contentHash f man major? m.os_major hc hshape hmm
        files1 files2 s hs]
  · intro ops1 ops2
    rw [hfile ops1 ops2]
  · intro ops1 ops2
    rw [hfile ops1 ops2]

/-- Witness for C3: inserting a RHEL 8 manifest before a RHEL 9 manifest in
an OS-9 merge run changes nothing. -/
theorem c3_witness :
    ManifestMerger.runOps (fun _ => "h")
      { os_major := 9, manifests := [], manifest_hashes := [] }
      ([] ++ .file wrongOsFile :: [.file fixtureFile])
    = ManifestMerger.runOps (fun _ => "h")
      { os_major := 9, manifests := [], manifest_hashes := [] }
      ([] ++ [.file fixtureFile]) :=
  (c3_wrong_os_manifest_leaves_no_trace (fun _ => "h")
    { os_major := 9, manifests := [], manifest_hashes := [] }
    wrongOsFile _ (some (.num 8)) rfl rfl (by decide)).1 [] [.file fixtureFile]

/-- Marking one more name as processed can only shrink the measure. -/
theorem requiresWeight_cons_le (tbl : List (String × List String))
    (processed : List String) (n : String) :
    DependencyResolver.requiresWeight tbl (n :: processed) ≤
      DependencyResolver.requiresWeight tbl processed := by
  induction tbl with
  | nil => exact le_refl _
  | cons e rest ih =>
      simp only [DependencyResolver.requiresWeight, List.filter_cons] at ih ⊢
      by_cases hp : processed.contains e.1 = true
      · have hc : (n :: processed).contains e.1 = true := by
          simp only [List.contains_cons, hp, Bool.or_true]
        simp only [hp, hc, Bool.not_true, Bool.false_eq_true, if_false]
        exact ih
      · have hpf : processed.contains e.1 = false := by
          rwa [Bool.not_eq_true] at hp
        by_cases hen : (e.1 == n) = true
        · have hc : (n :: processed).contains e.1 = true := by
            simp only [List.contains_cons, hen, Bool.true_or]
          simp only [hpf, hc, Bool.not_true, Bool.not_false, Bool.false_eq_true,
                     if_false, if_true, List.map_cons, List.sum_cons]
          exact le_trans ih (Nat.le_add_left _ _)
        · have henf : (e.1 == n) = false := by
            rwa [Bool.not_eq_true] at hen
          have hc : (n :: processed).contains e.1 = false := by
            simp only [List.contains_cons, henf, hpf, Bool.or_self]
          simp only [hpf, hc, Bool.not_false, if_true, List.map_cons,
                     List.sum_cons]
          exact Nat.add_le_add_left ih _

/-- Processing an unseen name removes at least its own requirement list
from the measure. -/
theorem requiresWeight_drop (tbl : List (String × List String))
    (processed : List String) (n : String)
    (hnp : processed.contains n = false) :
    DependencyResolver.requiresWeight tbl (n :: processed)
        + (DependencyResolver.tblRequires tbl n).length ≤
      DependencyResolver.requiresWeight tbl processed := by
  induction tbl with
  | nil => simp [DependencyResolver.requiresWeight, DependencyResolver.tblRequires]
  | cons e rest ih =>
      by_cases hen : (e.1 == n) = true
      · have hreq : DependencyResolver.tblRequires (e :: rest) n = e.2 := by
          simp [DependencyResolver.tblRequires, List.find?_cons, hen]
        have he1n : e.1 = n := eq_of_beq hen
        have hpf : processed.contains e.1 = false := by rw [he1n]; exact hnp
        have hc : (n :: processed).contains e.1 = true := by
          simp only [List.contains_cons, hen, Bool.true_or]
        simp only [DependencyResolver.requiresWeight, List.filter_cons, hreq,
                   hc, hpf, Bool.not_true, Bool.not_false, Bool.false_eq_true,
                   if_false, if_true, List.map_cons, List.sum_cons]
        have := requiresWeight_cons_le rest processed n
        simp only [DependencyResolver.requiresWeight] at this
        omega
      · have henf : (e.1 == n) = false := by rwa [Bool.not_eq_true] at hen
        have hreq : DependencyResolver.tblRequires (e :: rest) n
            = DependencyResolver.tblRequires rest n := by
          simp [DependencyResolver.tblRequires, List.find?_cons, henf]
        have hc : (n :: processed).contains e.1 = processed.contains e.1 := by
          simp only [List.contains_cons, henf, Bool.false_or]
        by_cases hp : processed.contains e.1 = true
        · simp only [DependencyResolver.requiresWeight, List.filter_cons, hreq,
                     hc, hp, Bool.not_true, Bool.false_eq_true, if_false]
          simp only [DependencyResolver.requiresWeight] at ih
          exact ih
        · have hpf : processed.contains e.1 = false := by
            rwa [Bool.not_eq_true] at hp
          simp only [DependencyResolver.requiresWeight, List.filter_cons, hreq,
                     hc, hpf, Bool.not_false, if_true, List.map_cons,
                     List.sum_cons]
          simp only [DependencyResolver.requiresWeight] at ih
          omega

/-- Worklist step: an already-processed name is skipped. -/
theorem repoqueryLoop_skip (oracle : DependencyResolver.DnfOracle)
    (packages : List String) (fuel : Nat) (name : String) (rest : List String)
    (processed : List String) (resolved : List DependencyResolver.ResolvedPackage)
    (trace : List String) (hp : processed.contains name = true) :
    DependencyResolver.repoqueryLoop oracle packages (fuel + 1) (name :: rest)
        processed resolved trace
      = DependencyResolver.repoqueryLoop oracle packages fuel rest processed
        resolved trace := by
  conv_lhs => rw [DependencyResolver.repoqueryLoop]
  rw [hp]
  exact if_pos rfl

/-- Worklist step: a failing latest-version query leaves only the processed
mark and the trace entry. -/
theorem repoqueryLoop_fail (oracle : DependencyResolver.DnfOracle)
    (packages : List String) (fuel : Nat) (name : String) (rest : List String)
    (processed : List String) (resolved : List DependencyResolver.ResolvedPackage)
    (trace : List String) (hp : processed.contains name = false)
    (hl : oracle.latest name = none) :
    DependencyResolver.repoqueryLoop oracle packages (fuel + 1) (name :: rest)
        processed resolved trace
      = DependencyResolver.repoqueryLoop oracle packages fuel rest
        (name :: processed) resolved (trace ++ [name]) := by
  conv_lhs => rw [DependencyResolver.repoqueryLoop]
  rw [hp]
  rw [if_neg (by decide)]
  dsimp only
  rw [hl]

/-- Worklist step: a successful latest-version query ingests its rows and
enqueues the unseen requirement names. -/
theorem repoqueryLoop_rows (oracle : DependencyResolver.DnfOracle)
    (packages : List String) (fuel : Nat) (name : String) (rest : List String)
    (processed : List String) (resolved : List DependencyResolver.ResolvedPackage)
    (trace : List String) (lines : List String)
    (hp : processed.contains name = false)
    (hl : oracle.latest name = some lines) :
    DependencyResolver.repoqueryLoop oracle packages (fuel + 1) (name :: rest)
        processed resolved trace
      = DependencyResolver.repoqueryLoop oracle packages fuel
        (rest ++ (oracle.requiresOf name).filterMap (fun dep_line =>
          let dep_name := strTrim dep_line
          if dep_name != "" && !((name :: processed).contains dep_name) then
            some dep_name
          else none))
        (name :: processed)
        (lines.foldl (DependencyResolver.parseRepoRow packages) resolved)
        (trace ++ [name]) := by
  conv_lhs => rw [DependencyResolver.repoqueryLoop]
  rw [hp]
  rw [if_neg (by decide)]
  dsimp only
  rw [hl]

/-- With fuel at least the queue length plus the pending requirement
weight, the worklist runs to completion (queue exhausted). -/
theorem repoqueryLoop_total (oracle : DependencyResolver.DnfOracle)
    (packages : List String) :
    ∀ (fuel : Nat) (queue processed : List String)
      (resolved : List DependencyResolver.ResolvedPackage) (trace : List String),
      queue.length + DependencyResolver.requiresWeight oracle.repoRequiresTbl
        processed ≤ fuel →
      ∃ res tr, DependencyResolver.repoqueryLoop oracle packages fuel queue
        processed resolved trace = some (res, tr) := by
  intro fuel
  induction fuel with
  | zero =>
      intro queue processed resolved trace hle
      cases queue with
      | nil => exact ⟨resolved, trace, rfl⟩
      | cons a rest => simp at hle
  | succ fuel ih =>
      intro queue processed resolved trace hle
      cases queue with
      | nil => exact ⟨resolved, trace, rfl⟩
      | cons name rest =>
          by_cases hp : processed.contains name = true
          · rw [repoqueryLoop_skip oracle packages fuel name rest processed
                resolved trace hp]
            apply ih
            simp only [List.length_cons] at hle
            omega
          · have hpf : processed.contains name = false := by
              rwa [Bool.not_eq_true] at hp
            cases hl : oracle.latest name with
            | none =>
                rw [repoqueryLoop_fail oracle packages fuel name rest processed
                    resolved trace hpf hl]
                apply ih
                have hmono := requiresWeight_cons_le oracle.repoRequiresTbl
                  processed name
                simp only [List.length_cons] at hle
                omega
            | some lines =>
                rw [repoqueryLoop_rows oracle packages fuel name rest processed
                    resolved trace lines hpf hl]
                apply ih
                have hdrop := requiresWeight_drop oracle.repoRequiresTbl
                  processed name hpf
                have hdeps : ((oracle.requiresOf name).filterMap (fun dep_line =>
                    if (strTrim dep_line != ""
                        && !((name :: processed).contains (strTrim dep_line)))
                        = true then
                      some (strTrim dep_line) else none)).length
                    ≤ (oracle.requiresOf name).length :=
                  List.length_filterMap_le _ _
                have hlen : (oracle.requiresOf name).length
                    = (DependencyResolver.tblRequires
                        oracle.repoRequiresTbl name).length := rfl
                rw [hlen] at hdeps
                simp only [List.length_cons, List.length_append] at hle ⊢
                omega

/-- The trace of queried names never repeats: a name in the processed set
is never queried again. -/
theorem repoqueryLoop_trace_nodup (oracle : DependencyResolver.DnfOracle)
    (packages : List String) :
    ∀ (fuel : Nat) (queue processed : List String)
      (resolved : List DependencyResolver.ResolvedPackage)
      (trace : List String) (res : List DependencyResolver.ResolvedPackage)
      (tr : List String),
      trace.Nodup → (∀ t ∈ trace, processed.contains t = true) →
      DependencyResolver.repoqueryLoop oracle packages fuel queue processed
        resolved trace = some (res, tr) →
      tr.Nodup := by
  intro fuel
  induction fuel with
  | zero =>
      intro queue processed resolved trace res tr hnd hinv h
      cases queue with
      | nil =>
          rw [show DependencyResolver.repoqueryLoop oracle packages 0 []
              processed resolved trace = some (resolved, trace) from rfl] at h
          rw [Option.some.injEq, Prod.mk.injEq] at h
          rw [← h.2]
          exact hnd
      | cons a rest => cases h
  | succ fuel ih =>
      intro queue processed resolved trace res tr hnd hinv h
      cases queue with
      | nil =>
          rw [show DependencyResolver.repoqueryLoop oracle packages (fuel + 1) []
              processed resolved trace = some (resolved, trace) from rfl] at h
          rw [Option.some.injEq, Prod.mk.injEq] at h
          rw [← h.2]
          exact hnd
      | cons name rest =>
          by_cases hp : processed.contains name = true
          · rw [repoqueryLoop_skip oracle packages fuel name rest processed
                resolved trace hp] at h
            exact ih rest processed resolved trace res tr hnd hinv h
          · have hpf : processed.contains name = false := by
              rwa [Bool.not_eq_true] at hp
            have hnmem : name ∉ trace := by
              intro hmem
              rw [hinv name hmem] at hpf
              cases hpf
            have hnd' : (trace ++ [name]).Nodup := by
              rw [List.nodup_append]
              exact ⟨hnd, List.nodup_singleton name,
                fun a ha hb => hnmem (by simpa [List.mem_singleton.mp hb] using ha)⟩
            have hinv' : ∀ t ∈ trace ++ [name],
                (name :: processed).contains t = true := by
              intro t ht
              rcases List.mem_append.mp ht with ht | ht
              · simp only [List.contains_cons, hinv t ht, Bool.or_true]
              · have : t = name := List.mem_singleton.mp ht
                subst this
                simp only [List.contains_cons, beq_self_eq_true, Bool.true_or]
            cases hl : oracle.latest name with
            | none =>
                rw [repoqueryLoop_fail oracle packages fuel name rest processed
                    resolved trace hpf hl] at h
                exact ih rest (name :: processed) resolved (trace ++ [name])
                  res tr hnd' hinv' h
            | some lines =>
                rw [repoqueryLoop_rows oracle packages fuel name rest processed
                    resolved trace lines hpf hl] at h
                exact ih _ (name :: processed) _ (trace ++ [name])
                  res tr hnd' hinv' h

/-- With no names processed, the pending weight is the whole table. -/
theorem requiresWeight_nil (tbl : List (String × List String)) :
    DependencyResolver.requiresWeight tbl []
      = (tbl.map (fun e => e.2.length)).sum := by
  simp [DependencyResolver.requiresWeight]

/-- Claim C6: for every package-name set and every dependency oracle
(cycles included), the breadth-first repoquery fallback queries each name
at most once — a name in the processed set is never revisited — and
terminates with the pending queue exhausted (the fuel bound is never
hit). -/
theorem c6_repoquery_fallback_terminates_each_name_once
    (oracle : DependencyResolver.DnfOracle) (packages : List String) :
    ∃ resolved trace,
      DependencyResolver.repoqueryLoop oracle packages
          (DependencyResolver.repoqueryFuel oracle packages) packages [] [] []
        = some (resolved, trace) ∧
      trace.Nodup ∧
      DependencyResolver.resolveViaRepoquery oracle packages = resolved := by
  have hfuel : (packages : List String).length +
      DependencyResolver.requiresWeight oracle.repoRequiresTbl []
      ≤ DependencyResolver.repoqueryFuel oracle packages := by
    rw [requiresWeight_nil]
    exact le_refl _
  obtain ⟨res, tr, h⟩ := repoqueryLoop_total oracle packages
    (DependencyResolver.repoqueryFuel oracle packages) packages [] [] [] hfuel
  refine ⟨res, tr, h, ?_, ?_⟩
  · exact repoqueryLoop_trace_nodup oracle packages _ packages [] [] [] res tr
      List.nodup_nil (fun t ht => absurd ht (List.not_mem_nil t)) h
  · unfold DependencyResolver.resolveViaRepoquery
    rw [h]
